import Mathlib

/-!
# Chat server: wire protocol codec and client session registry

A shallow embedding of `interserver_protocol.{h,cpp}` (the `|`-delimited codec for
`ServerMessage` and `ServerInfo`), of the client registry of `server.cpp`
(`ChatServer::acceptConnections`, `handleClient`, `processMessage`, `broadcastMessage`,
`sendPrivateMessage`, `kickUser`) and of the federation manager of
`server_manager.{h,cpp}` (`ServerManager::connectToServer`, `sendMessage`,
`processMessage`, `getConnectedServers`, `cleanupDeadConnections`, and
`InterServerConnection` with its receive loop and `disconnect`), and of
`ConfigManager::isServerAllowed` and `isServerTimeout`, followed by theorems about them.

Conventions.
* A `std::string` is the list of its characters (`Str`).
* A thrown C++ exception is the `error` side of `Except`.
* `int` values are `Int`s in the 32-bit range, `long long` values are `Int`s in the
  64-bit range; the library conversions check the range the way `std::stoi` /
  `std::stoll` do.
* `std::chrono::system_clock::time_point` is the count of clock ticks since the epoch,
  one tick being a nanosecond (the libstdc++ clock the sources are built with).
* A `send(socket, data)` call is recorded as the pair `(socket, data)` in an output log;
  where the value it returns matters, that value is given by a `transport` function.
* What the operating system answers (accepted sockets, `connect` results, clock
  readings) is a parameter of the function that asks for it.
* The scope of a `std::lock_guard` on the registry mutex is a flag in the state of the
  path that constructs it (`GuardedRegistry`).
-/

namespace ChatServer

/-- A `std::string`, as the list of its characters. -/
abbrev Str := List Char

/-! ## Library layer: exceptions, integer parsing and printing, `std::getline` -/

/-- The exceptions the codec can throw: `std::runtime_error` (with its message),
`std::invalid_argument` and `std::out_of_range` (both from `std::stoi`/`std::stoll`). -/
inductive CodecError where
  | runtime_error (what : String)
  | invalid_argument
  | out_of_range
deriving DecidableEq, Repr

deriving instance DecidableEq for Except

def INT_MIN : Int := -2147483648
def INT_MAX : Int := 2147483647
def LLONG_MIN : Int := -9223372036854775808
def LLONG_MAX : Int := 9223372036854775807

/-- Value range of `int`. -/
def inInt (v : Int) : Prop := INT_MIN ≤ v ∧ v ≤ INT_MAX

/-- Value range of `long long` (the representation of `system_clock` durations). -/
def inLongLong (v : Int) : Prop := LLONG_MIN ≤ v ∧ v ≤ LLONG_MAX

instance (v : Int) : Decidable (inInt v) := by unfold inInt; infer_instance
instance (v : Int) : Decidable (inLongLong v) := by unfold inLongLong; infer_instance

/-- Two's complement wrap-around of a 64-bit signed result. -/
def wrapLongLong (v : Int) : Int := (v + 9223372036854775808) % 18446744073709551616 - 9223372036854775808

/-- The C `isspace` in the "C" locale. -/
def isspace (c : Char) : Bool :=
  c == ' ' || c == '\t' || c == '\n' || c == '\x0b' || c == '\x0c' || c == '\r'

/-- The C `isdigit`. -/
def isdigit (c : Char) : Bool := decide (48 ≤ c.toNat) && decide (c.toNat ≤ 57)

/-- Value of a decimal digit character. -/
def digitVal (c : Char) : Nat := c.toNat - 48

/-- The character of a decimal digit. -/
def digitChar (d : Nat) : Char := Char.ofNat (48 + d)

/-- Value of a run of decimal digits, most significant first. -/
def digitsVal (ds : Str) : Nat := ds.foldl (fun acc c => acc * 10 + digitVal c) 0

/-- The optional sign in front of the digits: whether it is a minus, and the text after it. -/
def stripSign (s : Str) : Bool × Str :=
  match s with
  | '-' :: r => (true, r)
  | '+' :: r => (false, r)
  | r => (false, r)

/-- The conversion `strtol`/`strtoll` perform in base 10, before any range check:
leading white space is skipped, one optional sign is taken, then the longest run of
decimal digits is read; whatever follows the digits is ignored. `none` when there is
no digit to convert. -/
def strtoBase10 (s : Str) : Option Int :=
  let signed := stripSign (s.dropWhile isspace)
  let ds := signed.2.takeWhile isdigit
  if ds.isEmpty then none
  else if signed.1 then some (-(digitsVal ds : Int))
  else some (digitsVal ds : Int)

/-- Whether a numeric field has a leading decimal integer: after the leading white space
and one optional sign, the next character is a decimal digit. -/
def startsWithInteger (s : Str) : Bool :=
  match (stripSign (s.dropWhile isspace)).2 with
  | c :: _ => isdigit c
  | [] => false

/-- `std::stoi`: throws `invalid_argument` when no conversion can be performed and
`out_of_range` when the value does not fit an `int`. -/
def stoi (s : Str) : Except CodecError Int :=
  match strtoBase10 s with
  | none => .error .invalid_argument
  | some v => if inInt v then .ok v else .error .out_of_range

/-- `std::stoll`: as `stoi`, for `long long`. -/
def stoll (s : Str) : Except CodecError Int :=
  match strtoBase10 s with
  | none => .error .invalid_argument
  | some v => if inLongLong v then .ok v else .error .out_of_range

/-- Decimal digits of a natural number, most significant first (the recursion is on a
fuel argument that bounds the number of digits). -/
def natToDecFuel : Nat → Nat → Str
  | 0, _ => []
  | fuel + 1, n =>
    if n < 10 then [digitChar n]
    else natToDecFuel fuel (n / 10) ++ [digitChar (n % 10)]

/-- What `operator<<` prints for a non-negative integer. -/
def natToDec (n : Nat) : Str := natToDecFuel (n + 1) n

/-- What `std::ostream::operator<<` prints for a signed integer: a minus sign for a
negative value, then the decimal digits of the magnitude. -/
def intToDec (v : Int) : Str :=
  if v < 0 then '-' :: natToDec v.natAbs else natToDec v.natAbs

/-- One extraction of `std::getline(ss, token, delim)` on the unread characters of the
stream: the characters up to the first delimiter form the token, the delimiter is
discarded, and the rest stays unread. -/
def readUntil (delim : Char) : Str → Str × Str
  | [] => ([], [])
  | c :: cs =>
    if c = delim then ([], cs)
    else ((c :: (readUntil delim cs).1), (readUntil delim cs).2)

/-- The call `std::getline(ss, token, delim)` as a loop condition: it fails (`none`) when
no character is left to extract, otherwise yields the token and the unread rest. -/
def getline (delim : Char) (s : Str) : Option (Str × Str) :=
  match s with
  | [] => none
  | _ :: _ => some (readUntil delim s)

/-- The loop `while (std::getline(ss, token, '|')) tokens.push_back(token);`, with a
bound on the number of iterations. -/
def splitLoop : Nat → Str → List Str
  | 0, _ => []
  | fuel + 1, s =>
    match getline '|' s with
    | none => []
    | some (token, rest) => token :: splitLoop fuel rest

/-- The tokens the split loop collects from `data`; every iteration consumes at least
one character, so `data.length + 1` iterations reach the end of the stream. -/
def splitTokens (data : Str) : List Str := splitLoop (data.length + 1) data

/-! ## `interserver_protocol.h`: data model -/

/-- The enum class `ServerMessageType`, by its underlying `int` value (a
`static_cast<ServerMessageType>` of any `int` is a value of the type). -/
structure ServerMessageType where
  code : Int
deriving DecidableEq, Repr

namespace ServerMessageType
def SERVER_HANDSHAKE : ServerMessageType := ⟨100⟩
def SERVER_HANDSHAKE_ACK : ServerMessageType := ⟨101⟩
def SERVER_REGISTER : ServerMessageType := ⟨102⟩
def SERVER_REGISTER_ACK : ServerMessageType := ⟨103⟩
def SERVER_DISCONNECT : ServerMessageType := ⟨104⟩
def MSG_FORWARD_PUBLIC : ServerMessageType := ⟨200⟩
def MSG_FORWARD_PRIVATE : ServerMessageType := ⟨201⟩
def MSG_FORWARD_BROADCAST : ServerMessageType := ⟨202⟩
def USER_JOIN_SERVER : ServerMessageType := ⟨300⟩
def USER_LEAVE_SERVER : ServerMessageType := ⟨301⟩
def USER_LIST_REQUEST : ServerMessageType := ⟨302⟩
def USER_LIST_RESPONSE : ServerMessageType := ⟨303⟩
def SERVER_STATUS_REQUEST : ServerMessageType := ⟨400⟩
def SERVER_STATUS_RESPONSE : ServerMessageType := ⟨401⟩
def SERVER_LIST_REQUEST : ServerMessageType := ⟨402⟩
def SERVER_LIST_RESPONSE : ServerMessageType := ⟨403⟩
def ERROR_INVALID_MESSAGE : ServerMessageType := ⟨500⟩
def ERROR_AUTHENTICATION_FAILED : ServerMessageType := ⟨501⟩
def ERROR_SERVER_FULL : ServerMessageType := ⟨502⟩
def ERROR_SERVER_NOT_FOUND : ServerMessageType := ⟨503⟩
end ServerMessageType

/-- The struct `ServerMessage`; `timestamp` is in clock ticks since the epoch. -/
structure ServerMessage where
  type : ServerMessageType
  server_id : Str
  target_server_id : Str
  timestamp : Int
  payload : Str
deriving DecidableEq, Repr

/-- The struct `ServerInfo`; `last_seen` is in clock ticks since the epoch. -/
structure ServerInfo where
  server_id : Str
  server_name : Str
  host : Str
  port : Int
  max_clients : Int
  current_clients : Int
  last_seen : Int
  is_connected : Bool
deriving DecidableEq, Repr

/-- The values a C++ `ServerMessage` can hold: an `int` type code and a 64-bit tick count. -/
def ServerMessage.WellTyped (m : ServerMessage) : Prop :=
  inInt m.type.code ∧ inLongLong m.timestamp

/-- The values a C++ `ServerInfo` can hold: three `int`s and a 64-bit tick count. -/
def ServerInfo.WellTyped (i : ServerInfo) : Prop :=
  inInt i.port ∧ inInt i.max_clients ∧ inInt i.current_clients ∧ inLongLong i.last_seen

instance (m : ServerMessage) : Decidable m.WellTyped := by
  unfold ServerMessage.WellTyped; infer_instance

instance (i : ServerInfo) : Decidable i.WellTyped := by
  unfold ServerInfo.WellTyped; infer_instance

/-- Ticks of `std::chrono::system_clock` per second (its period is a nanosecond). -/
def ticksPerSecond : Int := 1000000000

/-- The expression
`std::chrono::duration_cast<std::chrono::seconds>(t.time_since_epoch()).count()`:
integer division of the tick count, truncating toward zero. -/
def secondsSinceEpoch (t : Int) : Int :=
  if 0 ≤ t then t / ticksPerSecond else -((-t) / ticksPerSecond)

/-- The expression `std::chrono::system_clock::time_point(std::chrono::seconds(n))`: the
seconds are converted to ticks by a 64-bit multiplication (which wraps around when the
product does not fit). -/
def timePointOfSeconds (n : Int) : Int := wrapLongLong (n * ticksPerSecond)

/-- A time point truncated to whole seconds. -/
def truncateToSeconds (t : Int) : Int := secondsSinceEpoch t * ticksPerSecond

/-! ## `interserver_protocol.cpp`: the codec -/

/-- Format: `TYPE|SERVER_ID|TARGET_SERVER_ID|TIMESTAMP|PAYLOAD`. -/
def serializeServerMessage (msg : ServerMessage) : Str :=
  intToDec msg.type.code ++ ['|']
    ++ msg.server_id ++ ['|']
    ++ msg.target_server_id ++ ['|']
    ++ intToDec (secondsSinceEpoch msg.timestamp) ++ ['|']
    ++ msg.payload

/-- Splits on `|`, throws when fewer than five tokens were read, and builds the message
from the first five tokens. (The constructor stamps the message with the current time;
that value is overwritten by the parsed time stamp before the message is returned, and
no message is returned when parsing the time stamp throws.) -/
def deserializeServerMessage (data : Str) : Except CodecError ServerMessage :=
  let tokens := splitTokens data
  if tokens.length < 5 then
    .error (.runtime_error "Invalid message format")
  else do
    let type ← stoi (tokens.getD 0 [])
    let msg : ServerMessage :=
      { type := ⟨type⟩, server_id := tokens.getD 1 [], target_server_id := tokens.getD 2 [],
        timestamp := 0, payload := tokens.getD 4 [] }
    let timestamp_seconds ← stoll (tokens.getD 3 [])
    pure { msg with timestamp := timePointOfSeconds timestamp_seconds }

/-- Format: `ID|NAME|HOST|PORT|MAX_CLIENTS|CURRENT_CLIENTS|LAST_SEEN|CONNECTED`. -/
def serializeServerInfo (info : ServerInfo) : Str :=
  info.server_id ++ ['|']
    ++ info.server_name ++ ['|']
    ++ info.host ++ ['|']
    ++ intToDec info.port ++ ['|']
    ++ intToDec info.max_clients ++ ['|']
    ++ intToDec info.current_clients ++ ['|']
    ++ intToDec (secondsSinceEpoch info.last_seen) ++ ['|']
    ++ (if info.is_connected then ['1'] else ['0'])

/-- Splits on `|`, throws when fewer than eight tokens were read, and builds the
descriptor from the first eight tokens. -/
def deserializeServerInfo (data : Str) : Except CodecError ServerInfo :=
  let tokens := splitTokens data
  if tokens.length < 8 then
    .error (.runtime_error "Invalid server info format")
  else do
    let port ← stoi (tokens.getD 3 [])
    let max_clients ← stoi (tokens.getD 4 [])
    let current_clients ← stoi (tokens.getD 5 [])
    let timestamp_seconds ← stoll (tokens.getD 6 [])
    pure { server_id := tokens.getD 0 [], server_name := tokens.getD 1 [],
           host := tokens.getD 2 [], port := port, max_clients := max_clients,
           current_clients := current_clients,
           last_seen := timePointOfSeconds timestamp_seconds,
           is_connected := decide (tokens.getD 7 [] = ['1']) }

/-! ## `server.cpp`: the client session registry -/

/-- The struct `ChatServer::Client`. `addr` is the address of the heap object, which is
what `Client*` values are compared by (`client.get() != exclude`, `c.get() == client_ptr`);
`join_time` is in clock ticks. -/
structure Client where
  addr : Nat
  socket : Int
  username : Str
  ip_address : Str
  join_time : Int
  active : Bool
deriving DecidableEq, Repr

/-- One call `send(socket, data, ...)`: the socket written to and the text written. -/
abbrev Send := Int × Str

/-- What a socket is sent by a sequence of `send` calls, in order. -/
def deliveries (log : List Send) (socket : Int) : List Str :=
  (log.filter (fun e => decide (e.1 = socket))).map (fun e => e.2)

/-- The loop of `broadcastMessage` over `clients`: one `send` of `full_message` to every
client that is active and is not the excluded object. -/
def broadcastLoop (full_message : Str) (exclude : Option Nat) : List Client → List Send
  | [] => []
  | client :: rest =>
    if client.active && decide (some client.addr ≠ exclude) then
      (client.socket, full_message) :: broadcastLoop full_message exclude rest
    else
      broadcastLoop full_message exclude rest

/-- The method `ChatServer::broadcastMessage(message, exclude)`; `exclude` is `none` for
`nullptr`, otherwise the address of the excluded client. -/
def broadcastMessage (clients : List Client) (message : Str) (exclude : Option Nat) :
    List Send :=
  let full_message := message ++ "\n".toList
  broadcastLoop full_message exclude clients

/-- The loop of `sendPrivateMessage`: the first active client named `target` is sent the
private line and the sender the confirmation; when the loop ends without a match the
sender is sent the "not found" notice. -/
def sendPrivateMessageLoop (sender : Client) (target message : Str) : List Client → List Send
  | [] => [(sender.socket, "User '".toList ++ target ++ "' not found.\n".toList)]
  | client :: rest =>
    if client.active && decide (client.username = target) then
      [(client.socket,
          "[PRIVATE from ".toList ++ sender.username ++ "]: ".toList ++ message ++ "\n".toList),
       (sender.socket,
          "[PRIVATE to ".toList ++ target ++ "]: ".toList ++ message ++ "\n".toList)]
    else
      sendPrivateMessageLoop sender target message rest

/-- The method `ChatServer::sendPrivateMessage(sender, target, message)`. -/
def sendPrivateMessage (clients : List Client) (sender : Client) (target message : Str) :
    List Send :=
  sendPrivateMessageLoop sender target message clients

/-- The lines `sendUserList` appends for the active clients. -/
def userListLines : List Client → Str
  | [] => []
  | client :: rest =>
    if client.active then
      "- ".toList ++ client.username ++ " (".toList ++ client.ip_address ++ ")\n".toList
        ++ userListLines rest
    else
      userListLines rest

/-- The method `ChatServer::sendUserList(sender)`. -/
def sendUserList (clients : List Client) (sender : Client) : List Send :=
  let user_list := "\n=== Online Users ===\n".toList ++ userListLines clients
    ++ "Total: ".toList ++ natToDec clients.length ++ " users\n\n".toList
  [(sender.socket, user_list)]

/-- The method `ChatServer::sendHelp(sender)`. -/
def sendHelp (sender : Client) : List Send :=
  [(sender.socket,
    ("\n=== Chat Commands ===\n" ++
     "/list - Show online users\n" ++
     "/pm <username> <message> - Send private message\n" ++
     "/quit - Leave the chat\n" ++
     "/help - Show this help\n" ++
     "Just type normally to send public messages\n\n").toList)]

/-- The assignment `p->active = false` on the object at address `addr`. -/
def setInactive (clients : List Client) (addr : Nat) : List Client :=
  clients.map (fun c => if c.addr = addr then { c with active := false } else c)

/-- A `std::istringstream` being read: the characters not yet extracted, and whether the
stream is still `good()` (neither `eofbit` nor `failbit` set). -/
structure IStringStream where
  unread : Str
  good : Bool
deriving DecidableEq, Repr

/-- The extraction `iss >> word` into an empty string: leading white space is skipped and
the characters up to the next white space are read. It fails, leaving the word empty,
when the stream is not good or holds no word; reaching the end of the text while
reading sets `eofbit`. -/
def IStringStream.extractWord (iss : IStringStream) : Str × IStringStream :=
  if iss.good then
    let s1 := iss.unread.dropWhile isspace
    if s1.isEmpty then ([], { unread := [], good := false })
    else
      let word := s1.takeWhile (fun c => !isspace c)
      let rest := s1.dropWhile (fun c => !isspace c)
      (word, { unread := rest, good := !rest.isEmpty })
  else ([], { iss with good := false })

/-- The line read by `std::getline(iss, line)` into an empty string: the unread characters
up to the first newline; empty when the stream is not good or nothing is left. -/
def IStringStream.getlineText (iss : IStringStream) : Str :=
  if iss.good then (readUntil '\n' iss.unread).1 else []

/-- The method `ChatServer::processMessage(sender, message)`: the registry afterwards and
the `send` calls made. `now` is the text `getCurrentTime()` returns. -/
def processMessage (now : Str) (clients : List Client) (sender : Client) (message : Str) :
    List Client × List Send :=
  if message.head? = some '/' then
    let iss : IStringStream := { unread := message, good := true }
    let command := iss.extractWord
    if command.1 = "/quit".toList then
      (setInactive clients sender.addr, [(sender.socket, "Goodbye!\n".toList)])
    else if command.1 = "/list".toList then
      (clients, sendUserList clients sender)
    else if command.1 = "/help".toList then
      (clients, sendHelp sender)
    else if command.1 = "/pm".toList then
      let target := command.2.extractWord
      let pm_message := target.2.getlineText
      if pm_message ≠ [] then
        (clients, sendPrivateMessage clients sender target.1 (pm_message.drop 1))
      else
        (clients, [])
    else
      (clients,
        [(sender.socket, "Unknown command. Type /help for available commands.\n".toList)])
  else
    let formatted_message := now ++ " [".toList ++ sender.username ++ "]: ".toList ++ message
    (clients, broadcastMessage clients formatted_message (some sender.addr))

/-- The duplicate check of `handleClient`: whether some registered client has the
username and is active. -/
def usernameTaken (username : Str) : List Client → Bool
  | [] => false
  | existing :: rest =>
    if existing.username = username ∧ existing.active = true then true
    else usernameTaken username rest

/-- Outcome of the registration step of `handleClient`. -/
structure JoinOutcome where
  joined : Bool
  clients : List Client
  sent : List Send
deriving DecidableEq, Repr

/-- The text sent to a client that has joined. -/
def joinInstructions : Str :=
  ("\n=== Successfully joined chat ===\n" ++
   "Commands:\n" ++
   "  /list - Show online users\n" ++
   "  /pm <username> <message> - Private message\n" ++
   "  /quit - Leave chat\n" ++
   "  /help - Show this help\n" ++
   "Just type to send public messages\n\n").toList

/-- The registration step of `ChatServer::handleClient`, entered with the username
already negotiated: a client whose username is held by an active registered client is
sent the rejection and dropped; otherwise it is appended to the registry, sent the
instructions, and announced to the others. -/
def handleClientJoin (clients : List Client) (client : Client) : JoinOutcome :=
  if usernameTaken client.username clients then
    { joined := false, clients := clients,
      sent := [(client.socket, "Username already taken. Connection closed.\n".toList)] }
  else
    let clients1 := clients ++ [client]
    { joined := true, clients := clients1,
      sent := (client.socket, joinInstructions) ::
        broadcastMessage clients1
          ("*** ".toList ++ client.username ++ " joined the chat ***".toList)
          (some client.addr) }

/-- The erasure `clients.erase(std::remove_if(..., c.get() == client_ptr), clients.end())`. -/
def eraseClient (clients : List Client) (addr : Nat) : List Client :=
  clients.filter (fun c => decide (c.addr ≠ addr))

/-- The disconnect path of `ChatServer::handleClient`, after the read loop has ended: the
others are told that the user left, the client is marked inactive, and its entry is
erased from the registry. -/
def handleClientDisconnect (clients : List Client) (client_ptr : Client) :
    List Client × List Send :=
  let sent := broadcastMessage clients
    ("*** ".toList ++ client_ptr.username ++ " left the chat ***".toList)
    (some client_ptr.addr)
  (eraseClient (setInactive clients client_ptr.addr) client_ptr.addr, sent)

/-- The method `ChatServer::kickUser(username)`: the first active client with that
username is sent the notice and marked inactive; nothing is sent when there is none. -/
def kickUser (username : Str) : List Client → List Client × List Send
  | [] => ([], [])
  | client :: rest =>
    if client.active && decide (client.username = username) then
      ({ client with active := false } :: rest,
        [(client.socket, "You have been kicked from the server.\n".toList)])
    else
      (client :: (kickUser username rest).1, (kickUser username rest).2)

/-- The registry invariant: no two distinct entries that are both active have the same
username. -/
def UniqueActiveUsernames (clients : List Client) : Prop :=
  clients.Pairwise (fun a b => a.active = true → b.active = true → a.username ≠ b.username)

/-- The registry states reachable from the empty registry by registration steps (of a
freshly constructed, hence active, client), by `processMessage` calls of registered
senders (among them `/quit`), by `kickUser` calls and by disconnect steps. -/
inductive Reachable : List Client → Prop where
  | empty : Reachable []
  | join (clients : List Client) (client : Client) :
      Reachable clients → client.active = true →
      Reachable (handleClientJoin clients client).clients
  | message (now : Str) (clients : List Client) (sender : Client) (message : Str) :
      Reachable clients → sender ∈ clients →
      Reachable (processMessage now clients sender message).1
  | kick (clients : List Client) (username : Str) :
      Reachable clients → Reachable (kickUser username clients).1
  | disconnect (clients : List Client) (client_ptr : Client) :
      Reachable clients → client_ptr ∈ clients →
      Reachable (handleClientDisconnect clients client_ptr).1

instance (clients : List Client) : Decidable (UniqueActiveUsernames clients) := by
  unfold UniqueActiveUsernames; infer_instance

/-! ## Sample sessions, used to instantiate the theorems -/

def sampleAlice : Client :=
  { addr := 1, socket := 4, username := "alice".toList, ip_address := "10.0.0.1".toList,
    join_time := 0, active := true }

def sampleBob : Client :=
  { addr := 2, socket := 5, username := "bob".toList, ip_address := "10.0.0.2".toList,
    join_time := 0, active := true }

def sampleCarol : Client :=
  { addr := 3, socket := 6, username := "carol".toList, ip_address := "10.0.0.3".toList,
    join_time := 0, active := true }

/-- A second connection that asks for the username `alice`. -/
def sampleAlice2 : Client :=
  { addr := 7, socket := 8, username := "alice".toList, ip_address := "10.0.0.4".toList,
    join_time := 0, active := true }

def sampleRegistry : List Client := [sampleAlice, sampleBob, sampleCarol]

/-! ## `server.cpp`: accepting connections and negotiating the username -/

/-- The constant `SOCKET_ERROR` of `server.cpp` / `server_manager.h`. -/
def SOCKET_ERROR : Int := -1

/-- The constant `INVALID_SOCKET` of `server.cpp` / `server_manager.h`. -/
def INVALID_SOCKET : Int := -1

/-- The conversion `static_cast<std::vector<...>::size_type>(max_clients)` of an `int` to
the unsigned 64-bit `size_type`: a negative value wraps around. -/
def sizeTypeOfInt (v : Int) : Nat := (v % 18446744073709551616).toNat

/-- Outcome of the capacity check for one accepted connection: the `Client` handed to a
handler thread (`none` when the connection was turned away) and the `send` calls made. -/
structure AcceptOutcome where
  client : Option Client
  sent : List Send
deriving DecidableEq, Repr

/-- The body of the loop of `ChatServer::acceptConnections` for a connection that `accept`
returned: when the registry holds `max_clients` entries or more the connection is sent
"Server full" and closed; otherwise a `Client(client_socket, client_ip)` is constructed
(active, with an empty username) for a handler thread. `addr` is the address of the new
object and `now` the clock reading taken by the constructor. -/
def acceptConnection (max_clients : Int) (clients : List Client) (addr : Nat)
    (client_socket : Int) (client_ip : Str) (now : Int) : AcceptOutcome :=
  if clients.length ≥ sizeTypeOfInt max_clients then
    { client := none, sent := [(client_socket, "Server full. Try again later.\n".toList)] }
  else
    { client := some { addr := addr, socket := client_socket, username := [],
                       ip_address := client_ip, join_time := now, active := true },
      sent := [] }

/-- The construction `std::string(buffer)` from a NUL-terminated buffer: the characters
before the first NUL. -/
def cString (buffer : Str) : Str := buffer.takeWhile (fun c => c != Char.ofNat 0)

/-- The idiom `s.erase(std::remove(s.begin(), s.end(), c), s.end())`. -/
def eraseChar (c : Char) (s : Str) : Str := s.filter (fun x => x != c)

/-- The username negotiation of `ChatServer::handleClient`. `received` is what the first
`recv` put into the buffer (`bytes` is its length). When nothing was received the handler
closes the socket and returns (`none`); otherwise the text has its `\n` and `\r`
characters removed and, when nothing is left, is replaced by `Anonymous_` and the
socket handle in decimal. -/
def negotiateUsername (socket : Int) (received : Str) : Option Str :=
  if received.length ≤ 0 then none
  else
    let username := eraseChar '\r' (eraseChar '\n' (cString received))
    if username.isEmpty then some ("Anonymous_".toList ++ intToDec socket)
    else some username

/-- The state of the chat server between steps: the registry, and the clients that have
been accepted and are waiting in their handler thread for the username. -/
structure ServerState where
  clients : List Client
  pending : List Client
deriving DecidableEq, Repr

/-- Step "accept a connection (with its capacity check)". -/
def stepAccept (max_clients : Int) (st : ServerState) (addr : Nat) (client_socket : Int)
    (client_ip : Str) (now : Int) : ServerState :=
  match (acceptConnection max_clients st.clients addr client_socket client_ip now).client with
  | none => st
  | some client => { st with pending := st.pending ++ [client] }

/-- Step "finish username negotiation and register the session", for the pending client
at address `addr` that received `received`: `handleClient` up to the end of the
registration block. -/
def stepRegister (st : ServerState) (addr : Nat) (received : Str) : ServerState :=
  match st.pending.find? (fun c => decide (c.addr = addr)) with
  | none => st
  | some client =>
    let pending := st.pending.filter (fun c => decide (c.addr ≠ addr))
    match negotiateUsername client.socket received with
    | none => { st with pending := pending }
    | some username =>
      { clients := (handleClientJoin st.clients { client with username := username }).clients,
        pending := pending }

/-- Step "remove a session": the disconnect path of the handler of a registered client. -/
def stepRemove (st : ServerState) (client_ptr : Client) : ServerState :=
  { st with clients := (handleClientDisconnect st.clients client_ptr).1 }

/-- The server states reachable from the start (empty registry, no handler running) by
the three steps, for a server configured with `max_clients`. -/
inductive ServerReachable (max_clients : Int) : ServerState → Prop where
  | start : ServerReachable max_clients { clients := [], pending := [] }
  | accept (st : ServerState) (addr : Nat) (client_socket : Int) (client_ip : Str) (now : Int) :
      ServerReachable max_clients st →
      ServerReachable max_clients (stepAccept max_clients st addr client_socket client_ip now)
  | register (st : ServerState) (addr : Nat) (received : Str) :
      ServerReachable max_clients st →
      ServerReachable max_clients (stepRegister st addr received)
  | remove (st : ServerState) (client_ptr : Client) :
      ServerReachable max_clients st → client_ptr ∈ st.clients →
      ServerReachable max_clients (stepRemove st client_ptr)

/-- The loop of `broadcastMessage` with the value each `send` call returns, as given by
`transport`: the registry after the loop, and the calls made with their results. The
code does not look at the value `send` returns. -/
def broadcastLoopResults (transport : Send → Int) (full_message : Str)
    (exclude : Option Nat) : List Client → List Client × List (Send × Int)
  | [] => ([], [])
  | client :: rest =>
    if client.active && decide (some client.addr ≠ exclude) then
      let result := transport (client.socket, full_message)
      (client :: (broadcastLoopResults transport full_message exclude rest).1,
        ((client.socket, full_message), result) ::
          (broadcastLoopResults transport full_message exclude rest).2)
    else
      (client :: (broadcastLoopResults transport full_message exclude rest).1,
        (broadcastLoopResults transport full_message exclude rest).2)

/-- The method `ChatServer::broadcastMessage(message, exclude)` over a transport whose
`send` calls may fail. -/
def broadcastMessageResults (transport : Send → Int) (clients : List Client) (message : Str)
    (exclude : Option Nat) : List Client × List (Send × Int) :=
  broadcastLoopResults transport (message ++ "\n".toList) exclude clients

/-! ## `server_manager.{h,cpp}`: peer connections and the federation manager -/

/-- The class `InterServerConnection`, by its data members (`last_activity` in clock
ticks; the receive thread, the manager pointer and the socket mutex carry no data). -/
structure InterServerConnection where
  connection_socket : Int
  server_id : Str
  host : Str
  port : Int
  connected : Bool
  last_activity : Int
deriving DecidableEq, Repr

/-- The constructor `InterServerConnection(mgr, host, port)`: not connected, no socket,
`server_id = host + ":" + std::to_string(port)`, `last_activity` at the epoch. -/
def InterServerConnection.new (host : Str) (port : Int) : InterServerConnection :=
  { connection_socket := INVALID_SOCKET, server_id := host ++ ":".toList ++ intToDec port,
    host := host, port := port, connected := false, last_activity := 0 }

/-- What the operating system answers during one `InterServerConnection::connect()`: the
value of `socket(...)`, of `inet_pton(...)`, of `::connect(...)`, and the clock reading
taken by `updateActivity()`. -/
structure ConnectEnv where
  socket_result : Int
  inet_pton_result : Int
  connect_result : Int
  now : Int
deriving DecidableEq, Repr

/-- The method `InterServerConnection::connect()`: its return value and the connection
afterwards. `performHandshake()` returns `true`. -/
def InterServerConnection.connect (env : ConnectEnv) (c : InterServerConnection) :
    Bool × InterServerConnection :=
  let c1 := { c with connection_socket := env.socket_result }
  if c1.connection_socket = INVALID_SOCKET then (false, c1)
  else if env.inet_pton_result ≤ 0 then (false, c1)
  else if env.connect_result = SOCKET_ERROR then (false, c1)
  else (true, { c1 with connected := true, last_activity := env.now })

/-- The method `InterServerConnection::sendMessage(message)`: `false` without touching
the socket when not connected; otherwise one `send` of the serialized message, and
whether its result differs from `SOCKET_ERROR`. -/
def InterServerConnection.sendMessage (transport : Send → Int) (c : InterServerConnection)
    (message : ServerMessage) : Bool × List Send :=
  if !c.connected then (false, [])
  else
    let serialized := serializeServerMessage message
    let result := transport (c.connection_socket, serialized)
    (decide (result ≠ SOCKET_ERROR), [(c.connection_socket, serialized)])

/-- The member `connections`, a `std::map` from server id to connection: its entries in
iteration order. -/
abbrev ConnectionMap := List (Str × InterServerConnection)

/-- The assignment `connections[key] = value` on a `std::map`: the value of an existing
key is replaced, a new key is inserted at its place in the key order. -/
def mapAssign (key : Str) (value : InterServerConnection) : ConnectionMap → ConnectionMap
  | [] => [(key, value)]
  | entry :: rest =>
    if key = entry.1 then (key, value) :: rest
    else if key < entry.1 then (key, value) :: entry :: rest
    else entry :: mapAssign key value rest

/-- The class `ServerManager`, by the data members the modelled methods use. -/
structure ServerManager where
  connections : ConnectionMap
  message_queue : List ServerMessage
  total_messages_sent : Int
  total_messages_received : Int
  running : Bool
deriving DecidableEq, Repr

/-- The loop "Check if already connected" of `connectToServer`. -/
def alreadyConnected (host : Str) (port : Int) : ConnectionMap → Bool
  | [] => false
  | pair :: rest =>
    if pair.2.host = host ∧ pair.2.port = port then true
    else alreadyConnected host port rest

/-- The method `ServerManager::connectToServer(host, port)`: its return value and the
manager afterwards. -/
def ServerManager.connectToServer (env : ConnectEnv) (mgr : ServerManager) (host : Str)
    (port : Int) : Bool × ServerManager :=
  if alreadyConnected host port mgr.connections then (true, mgr)
  else
    let connection := (InterServerConnection.new host port).connect env
    if connection.1 then
      (true, { mgr with
        connections := mapAssign connection.2.server_id connection.2 mgr.connections })
    else (false, mgr)

/-- The loop of `getConnectedServers`: for every entry a default-constructed `ServerInfo`
with `server_id`, `host`, `port`, `is_connected` and `last_seen` filled in. -/
def getConnectedServersLoop : ConnectionMap → List ServerInfo
  | [] => []
  | pair :: rest =>
    { server_id := pair.1, server_name := [], host := pair.2.host, port := pair.2.port,
      max_clients := 0, current_clients := 0, last_seen := pair.2.last_activity,
      is_connected := pair.2.connected } :: getConnectedServersLoop rest

/-- The method `ServerManager::getConnectedServers()`. -/
def ServerManager.getConnectedServers (mgr : ServerManager) : List ServerInfo :=
  getConnectedServersLoop mgr.connections

/-- The increment `counter++` of a `std::atomic<int>`: 32-bit two's complement. -/
def incrementAtomicInt (v : Int) : Int := (v + 1 + 2147483648) % 4294967296 - 2147483648

/-- Outcome of `ServerManager::sendMessage`: the value returned, the manager afterwards,
what `sendMessage` returned on each connection (in iteration order), and the `send`
calls made on sockets. -/
structure SendOutcome where
  sent : Bool
  manager : ServerManager
  results : List Bool
  log : List Send
deriving DecidableEq, Repr

/-- The loop of `ServerManager::sendMessage` from the current value of the flag `sent`:
the flag after the loop, the per-connection results and the `send` calls. -/
def sendMessageLoop (transport : Send → Int) (message : ServerMessage) :
    ConnectionMap → Bool → Bool × List Bool × List Send
  | [], sent => (sent, [], [])
  | pair :: rest, sent =>
    let r := pair.2.sendMessage transport message
    let next := sendMessageLoop transport message rest (if r.1 then true else sent)
    (next.1, r.1 :: next.2.1, r.2 ++ next.2.2)

/-- The method `ServerManager::sendMessage(message)`. -/
def ServerManager.sendMessage (transport : Send → Int) (mgr : ServerManager)
    (message : ServerMessage) : SendOutcome :=
  let loop := sendMessageLoop transport message mgr.connections false
  if loop.1 then
    { sent := true,
      manager := { mgr with total_messages_sent := incrementAtomicInt mgr.total_messages_sent },
      results := loop.2.1, log := loop.2.2 }
  else
    { sent := false, manager := mgr, results := loop.2.1, log := loop.2.2 }

/-- The method `ServerManager::broadcastMessage(message)`. -/
def ServerManager.broadcastMessage (transport : Send → Int) (mgr : ServerManager)
    (message : ServerMessage) : SendOutcome :=
  mgr.sendMessage transport message

/-- The timeout of `cleanupDeadConnections`, `std::chrono::minutes(5)`, in clock ticks. -/
def cleanupTimeout : Int := 5 * 60 * ticksPerSecond

/-- The map invariant kept by `connectToServer`, the only place that inserts: every
entry is filed under the id `host:port` of its connection. -/
def KeysAreIds (connections : ConnectionMap) : Prop :=
  ∀ pair ∈ connections, pair.1 = pair.2.host ++ ":".toList ++ intToDec pair.2.port

instance (connections : ConnectionMap) : Decidable (KeysAreIds connections) := by
  unfold KeysAreIds; infer_instance

/-! ## Sample server states, used to instantiate the theorems -/

/-- The state of a server started with `max_clients = 1` after two connections were
accepted while the registry was still empty. -/
def sampleTwoPending : ServerState :=
  stepAccept 1 (stepAccept 1 { clients := [], pending := [] } 1 4 "10.0.0.1".toList 0)
    2 5 "10.0.0.2".toList 0

/-- The state reached from `sampleTwoPending` when both clients have sent a username. -/
def sampleOverfull : ServerState :=
  stepRegister (stepRegister sampleTwoPending 1 "alice\n".toList) 2 "bob\n".toList

/-- A transport on which every `send` to bob's socket fails and every other one reports
the number of characters written. -/
def sampleTransportBobDown : Send → Int :=
  fun call => if call.1 = sampleBob.socket then SOCKET_ERROR else call.2.length

/-- A peer connection that has been established and was last active at tick
`1000000000000` (1000 s after the epoch). -/
def samplePeerA : InterServerConnection :=
  { connection_socket := 20, server_id := "10.0.0.7:9090".toList, host := "10.0.0.7".toList,
    port := 9090, connected := true, last_activity := 1000000000000 }

/-- A peer connection whose receive loop has ended; last active at tick `400000000000`. -/
def samplePeerB : InterServerConnection :=
  { connection_socket := 21, server_id := "10.0.0.8:9090".toList, host := "10.0.0.8".toList,
    port := 9090, connected := false, last_activity := 400000000000 }

/-- A manager federated with the two sample peers. -/
def sampleManager : ServerManager :=
  { connections := [("10.0.0.7:9090".toList, samplePeerA), ("10.0.0.8:9090".toList, samplePeerB)],
    message_queue := [], total_messages_sent := 7, total_messages_received := 0,
    running := true }

/-- An operating system on which the socket is created (handle 22) and the connection is
made, at tick `1200000000000`. -/
def sampleConnectOk : ConnectEnv :=
  { socket_result := 22, inet_pton_result := 1, connect_result := 0, now := 1200000000000 }

/-- An operating system on which `::connect` fails (closed port). -/
def sampleConnectRefused : ConnectEnv :=
  { socket_result := 22, inet_pton_result := 1, connect_result := SOCKET_ERROR,
    now := 1200000000000 }

/-- A transport on which every `send` succeeds, reporting the characters written. -/
def sampleTransportUp : Send → Int := fun call => call.2.length

/-- A transport on which every `send` fails. -/
def sampleTransportDown : Send → Int := fun _ => SOCKET_ERROR

/-- A federation message with a one-word payload. -/
def sampleMessage : ServerMessage :=
  { type := ServerMessageType.MSG_FORWARD_PUBLIC, server_id := "S1".toList,
    target_server_id := [], timestamp := 5000000000, payload := "hi".toList }

/-! ## `server_manager.cpp`: message dispatch -/

/-- The line `ServerManager::logNetworkMessage(message)` writes to `std::cout`. -/
def logNetworkMessage (message : Str) : Str := "[NETWORK] ".toList ++ message

/-- The private handler methods of `ServerManager`. -/
inductive Handler where
  | handleHandshake
  | handleServerRegister
  | handleMessageForward
  | handleUserSync
  | handleServerStatus
deriving DecidableEq, Repr

/-- What a handler does: the lines it writes to the console, and the `send` calls it makes
on client sockets. `ServerManager` holds no reference to the `ChatServer` or its
registry, and every handler consists of one `logNetworkMessage` call. -/
structure HandlerEffect where
  console : List Str
  sent : List Send
deriving DecidableEq, Repr

/-- The method `ServerManager::handleHandshake(message)`. -/
def handleHandshake (message : ServerMessage) : HandlerEffect :=
  { console := [logNetworkMessage ("Handshake received from: ".toList ++ message.server_id)],
    sent := [] }

/-- The method `ServerManager::handleServerRegister(message)`. -/
def handleServerRegister (message : ServerMessage) : HandlerEffect :=
  { console := [logNetworkMessage ("Server registration from: ".toList ++ message.server_id)],
    sent := [] }

/-- The method `ServerManager::handleMessageForward(message)`. -/
def handleMessageForward (message : ServerMessage) : HandlerEffect :=
  { console := [logNetworkMessage ("Message forwarded: ".toList ++ message.payload)],
    sent := [] }

/-- The method `ServerManager::handleUserSync(message)`. -/
def handleUserSync (message : ServerMessage) : HandlerEffect :=
  { console := [logNetworkMessage ("User sync: ".toList ++ message.payload)],
    sent := [] }

/-- The method `ServerManager::handleServerStatus(message)`. -/
def handleServerStatus (message : ServerMessage) : HandlerEffect :=
  { console := [logNetworkMessage ("Server status request from: ".toList ++ message.server_id)],
    sent := [] }

/-- The effect of the handler named by a `Handler` value. -/
def Handler.run (h : Handler) (message : ServerMessage) : HandlerEffect :=
  match h with
  | .handleHandshake => ChatServer.handleHandshake message
  | .handleServerRegister => ChatServer.handleServerRegister message
  | .handleMessageForward => ChatServer.handleMessageForward message
  | .handleUserSync => ChatServer.handleUserSync message
  | .handleServerStatus => ChatServer.handleServerStatus message

/-- The `switch (message.type)` of `ServerManager::processMessage`: the handler of the
matching `case` label, `none` for the `default` branch. -/
def dispatchHandler (type : ServerMessageType) : Option Handler :=
  if type = ServerMessageType.SERVER_HANDSHAKE then some .handleHandshake
  else if type = ServerMessageType.SERVER_REGISTER then some .handleServerRegister
  else if type = ServerMessageType.MSG_FORWARD_PUBLIC then some .handleMessageForward
  else if type = ServerMessageType.MSG_FORWARD_PRIVATE then some .handleMessageForward
  else if type = ServerMessageType.MSG_FORWARD_BROADCAST then some .handleMessageForward
  else if type = ServerMessageType.USER_JOIN_SERVER then some .handleUserSync
  else if type = ServerMessageType.USER_LEAVE_SERVER then some .handleUserSync
  else if type = ServerMessageType.SERVER_STATUS_REQUEST then some .handleServerStatus
  else none

/-- Outcome of `ServerManager::processMessage`: the manager afterwards, the handler that
was invoked (`none` when the `default` branch ran), the console lines written and the
`send` calls made on client sockets. -/
structure DispatchOutcome where
  manager : ServerManager
  handler : Option Handler
  console : List Str
  sent : List Send
deriving DecidableEq, Repr

/-- The method `ServerManager::processMessage(message)`: the received-message counter is
incremented, then the message is dispatched on its type; the `default` branch writes
"Unknown message type received: " and the type code. -/
def ServerManager.processMessage (mgr : ServerManager) (message : ServerMessage) :
    DispatchOutcome :=
  let mgr1 := { mgr with
    total_messages_received := incrementAtomicInt mgr.total_messages_received }
  match dispatchHandler message.type with
  | some h =>
    { manager := mgr1, handler := some h, console := (h.run message).console,
      sent := (h.run message).sent }
  | none =>
    { manager := mgr1, handler := none,
      console := [logNetworkMessage
        ("Unknown message type received: ".toList ++ intToDec message.type.code)],
      sent := [] }

/-- The types the `switch` of `processMessage` has a `case` label for. -/
def handledTypes : List ServerMessageType :=
  [ServerMessageType.SERVER_HANDSHAKE, ServerMessageType.SERVER_REGISTER,
   ServerMessageType.MSG_FORWARD_PUBLIC, ServerMessageType.MSG_FORWARD_PRIVATE,
   ServerMessageType.MSG_FORWARD_BROADCAST, ServerMessageType.USER_JOIN_SERVER,
   ServerMessageType.USER_LEAVE_SERVER, ServerMessageType.SERVER_STATUS_REQUEST]

/-- The enumerators of `ServerMessageType` the `switch` has no `case` label for. -/
def unhandledEnumerators : List ServerMessageType :=
  [ServerMessageType.SERVER_HANDSHAKE_ACK, ServerMessageType.SERVER_REGISTER_ACK,
   ServerMessageType.SERVER_DISCONNECT, ServerMessageType.USER_LIST_REQUEST,
   ServerMessageType.USER_LIST_RESPONSE, ServerMessageType.SERVER_STATUS_RESPONSE,
   ServerMessageType.SERVER_LIST_REQUEST, ServerMessageType.SERVER_LIST_RESPONSE,
   ServerMessageType.ERROR_INVALID_MESSAGE, ServerMessageType.ERROR_AUTHENTICATION_FAILED,
   ServerMessageType.ERROR_SERVER_FULL, ServerMessageType.ERROR_SERVER_NOT_FOUND]

/-- A handshake acknowledgement from peer `S1`. -/
def sampleHandshakeAck : ServerMessage :=
  { type := ServerMessageType.SERVER_HANDSHAKE_ACK, server_id := "S1".toList,
    target_server_id := [], timestamp := 5000000000, payload := [] }

/-! ## `server_manager.cpp`: the receive loop and `disconnect` -/

/-- What the receive thread of a connection can change or write: the connection, the
manager's inbound `message_queue`, the exceptions caught and reported on `std::cerr`,
and whether the loop has been left. -/
structure ReceiveState where
  connection : InterServerConnection
  message_queue : List ServerMessage
  caught : List CodecError
  exited : Bool
deriving DecidableEq, Repr

/-- The statement `connected = false;` after the loop of `receiveLoop`. -/
def ReceiveState.leave (st : ReceiveState) : ReceiveState :=
  { st with connection := { st.connection with connected := false }, exited := true }

/-- One pass through the body of the loop of `InterServerConnection::receiveLoop`.
`received` is what `recv` put into the buffer (`bytes` is its length) and `now` the clock
reading of `updateActivity()`. When nothing was received the loop is left; otherwise the
text is decoded: on success the last-activity time is updated (the decoded message is not
used: the code has a `TODO` where it would be queued), on an exception the exception is
caught and reported. -/
def receiveIteration (now : Int) (st : ReceiveState) (received : Str) : ReceiveState :=
  if received.length ≤ 0 then st.leave
  else
    let data := cString received
    match deserializeServerMessage data with
    | .ok _ => { st with connection := { st.connection with last_activity := now } }
    | .error e => { st with caught := st.caught ++ [e] }

/-- The method `InterServerConnection::receiveLoop()` run against the successive results
of `recv` listed in `reads`, from its `i`-th pass on; `clock i` is the clock reading in
pass `i`. When the list is used up and the connection is still connected the thread is
waiting in `recv`. -/
def receiveLoop (clock : Nat → Int) : Nat → List Str → ReceiveState → ReceiveState
  | _, [], st => if st.exited || st.connection.connected then st else st.leave
  | i, received :: rest, st =>
    if st.exited then st
    else if !st.connection.connected then st.leave
    else receiveLoop clock (i + 1) rest (receiveIteration (clock i) st received)

/-- The method `InterServerConnection::disconnect()`: the connection afterwards and the
sockets it closed. (The `join` of the receive thread changes no data: the thread leaves
its loop and assigns `connected = false` once more.) -/
def InterServerConnection.disconnect (c : InterServerConnection) :
    InterServerConnection × List Int :=
  if !c.connected then (c, [])
  else
    let c1 := { c with connected := false }
    if c1.connection_socket ≠ INVALID_SOCKET then
      ({ c1 with connection_socket := INVALID_SOCKET }, [c1.connection_socket])
    else (c1, [])

/-- The receive thread of the first sample peer, before any read: an empty inbound queue,
nothing caught, the loop running. -/
def sampleReceiveState : ReceiveState :=
  { connection := samplePeerA, message_queue := [], caught := [], exited := false }

/-! ## `server_manager.cpp`: the liveness sweep -/

/-- How the destruction of a connection held by the map can end: `disconnect()` ran to
its end (closing the listed sockets), the destructor waits for ever in `join`, or
`std::terminate` is called. -/
inductive Destruction where
  | released (closed : List Int)
  | waits
  | terminates
deriving DecidableEq, Repr

/-- The destructor `~InterServerConnection()` run on an entry of the map, as
`connections.erase(it)` does. An entry was put into the map by `connectToServer` after
`connect()` had started the receive thread, and nothing has joined that thread since.
The destructor calls `disconnect()`. When `connected` is `false` (the receive loop has
ended by itself), `disconnect()` returns at its first test, and destroying the member
`receive_thread`, still joinable, calls `std::terminate`. When `connected` is `true`,
`disconnect()` clears the flag and joins the receive thread, which is waiting in `recv` on
the socket, not yet closed: the `join` returns only if that `recv` returns (`wakes`),
after which the socket is closed. -/
def destroyConnection (wakes : Bool) (c : InterServerConnection) : Destruction :=
  if !c.connected then .terminates
  else if wakes then .released (c.disconnect).2
  else .waits

/-- How a sweep can end: it ran to its end (with the value it leaves and the sockets it
closed), it waits for ever in a `join`, or the process was ended by `std::terminate`. -/
inductive SweepResult (α : Type) where
  | completed (value : α) (closed : List Int)
  | waits
  | terminates
deriving DecidableEq, Repr

/-- The loop of `cleanupDeadConnections` from its `i`-th iteration on: an entry is erased,
which destroys its connection, when the clock reading of the iteration minus its last
activity exceeds five minutes. `clock i` is what `std::chrono::system_clock::now()`
returns in iteration `i` (readings and activity times are times after the epoch, whose
difference fits the tick type); `wakes c` tells whether the `recv` the receive thread
of `c` waits in ever returns. -/
def cleanupLoop (clock : Nat → Int) (wakes : InterServerConnection → Bool) :
    Nat → ConnectionMap → SweepResult ConnectionMap
  | _, [] => .completed [] []
  | i, pair :: rest =>
    if clock i - pair.2.last_activity > cleanupTimeout then
      match destroyConnection (wakes pair.2) pair.2 with
      | .terminates => .terminates
      | .waits => .waits
      | .released closed =>
        match cleanupLoop clock wakes (i + 1) rest with
        | .completed kept closedLater => .completed kept (closed ++ closedLater)
        | .waits => .waits
        | .terminates => .terminates
    else
      match cleanupLoop clock wakes (i + 1) rest with
      | .completed kept closedLater => .completed (pair :: kept) closedLater
      | .waits => .waits
      | .terminates => .terminates

/-- The method `ServerManager::cleanupDeadConnections()`. -/
def ServerManager.cleanupDeadConnections (clock : Nat → Int)
    (wakes : InterServerConnection → Bool) (mgr : ServerManager) :
    SweepResult ServerManager :=
  match cleanupLoop clock wakes 0 mgr.connections with
  | .completed kept closed => .completed { mgr with connections := kept } closed
  | .waits => .waits
  | .terminates => .terminates

/-! ## `server_config.h`, `config_manager.cpp`: the allow-list -/

/-- The struct `ServerConfig` (`known_servers`, a map, by its entries). -/
structure ServerConfig where
  server_id : Str
  server_name : Str
  port : Int
  max_clients : Int
  enable_interserver_communication : Bool
  interserver_port : Int
  network_password : Str
  allowed_servers : List Str
  network_name : Str
  known_servers : List (Str × ServerInfo)
  enable_user_sync : Bool
  enable_message_forwarding : Bool
  enable_server_commands : Bool
deriving DecidableEq, Repr

/-- The test `std::find(first, last, value) != last` on a vector of strings. -/
def findString (value : Str) : List Str → Bool
  | [] => false
  | x :: rest => if x = value then true else findString value rest

/-- The method `ConfigManager::isServerAllowed(server_id)`, on the manager's `config`. -/
def isServerAllowed (config : ServerConfig) (server_id : Str) : Bool :=
  if config.allowed_servers.isEmpty then true
  else findString server_id config.allowed_servers

/-! ## `interserver_protocol.{h,cpp}`: `isServerTimeout` -/

/-- The constant `SERVER_TIMEOUT_SECONDS` ("5 minutes"). -/
def SERVER_TIMEOUT_SECONDS : Int := 300

/-- The expression `std::chrono::duration_cast<std::chrono::minutes>(d).count()`: integer
division of the tick count by the ticks of a minute, truncating toward zero. -/
def minutesOfDuration (d : Int) : Int :=
  if 0 ≤ d then d / (60 * ticksPerSecond) else -((-d) / (60 * ticksPerSecond))

/-- The function `isServerTimeout(last_seen)`, with `now` the clock reading it takes: the
whole minutes elapsed are compared with `SERVER_TIMEOUT_SECONDS`. -/
def isServerTimeout (now last_seen : Int) : Bool :=
  decide (minutesOfDuration (now - last_seen) > SERVER_TIMEOUT_SECONDS)

/-! ## `server.cpp`: the registry mutex -/

/-- The registry together with the state of `clients_mutex` on the running path: whether
a `std::lock_guard` on it is alive, and how many writes to registry state (the vector or
the `active` flag of a client) the path has made while holding no guard. -/
structure GuardedRegistry where
  clients : List Client
  held : Bool
  unguarded : Nat
deriving DecidableEq, Repr

/-- Construction of `std::lock_guard<std::mutex> lock(clients_mutex)`. -/
def GuardedRegistry.acquire (g : GuardedRegistry) : GuardedRegistry :=
  { g with held := true }

/-- End of the scope of the `std::lock_guard`. -/
def GuardedRegistry.release (g : GuardedRegistry) : GuardedRegistry :=
  { g with held := false }

/-- A write to registry state; it is counted when no guard is alive. -/
def GuardedRegistry.write (f : List Client → List Client) (g : GuardedRegistry) :
    GuardedRegistry :=
  { clients := f g.clients, held := g.held,
    unguarded := if g.held then g.unguarded else g.unguarded + 1 }

/-- The registration block of `handleClient` (the braces around the duplicate check and
`clients.push_back`): the guard lives for the whole block. -/
def guardedJoin (client : Client) (g : GuardedRegistry) : GuardedRegistry :=
  let g1 := g.acquire
  if usernameTaken client.username g1.clients then g1.release
  else (g1.write (fun clients => clients ++ [client])).release

/-- The `/quit` branch of `processMessage`: `sender->active = false;` with no guard
(`processMessage` is called from the read loop of `handleClient`, which holds none). -/
def guardedQuit (sender : Client) (g : GuardedRegistry) : GuardedRegistry :=
  g.write (fun clients => setInactive clients sender.addr)

/-- The disconnect path of `handleClient`: `broadcastMessage` takes and drops its own
guard; `client_ptr->active = false;` follows with no guard; then a guard is taken for
`clients.erase`. -/
def guardedDisconnect (client_ptr : Client) (g : GuardedRegistry) : GuardedRegistry :=
  let g1 := g.acquire.release
  let g2 := g1.write (fun clients => setInactive clients client_ptr.addr)
  let g3 := g2.acquire
  (g3.write (fun clients => eraseClient clients client_ptr.addr)).release

/-- The method `kickUser`: the guard is taken first and lives to the end. -/
def guardedKick (username : Str) (g : GuardedRegistry) : GuardedRegistry :=
  (g.acquire.write (fun clients => (kickUser username clients).1)).release

/-- The client part of `stop()`: under one guard every active client is marked inactive
and the vector is cleared. -/
def guardedStop (g : GuardedRegistry) : GuardedRegistry :=
  ((g.acquire.write (fun clients => clients.map (fun c => { c with active := false }))).write
    (fun _ => [])).release

/-- A configuration that allows two peers by id. -/
def sampleConfig : ServerConfig :=
  { server_id := "S0".toList, server_name := "ChatServer".toList, port := 8080,
    max_clients := 50, enable_interserver_communication := true, interserver_port := 8081,
    network_password := [], allowed_servers := ["S1".toList, "S2".toList],
    network_name := "ChatNetwork".toList, known_servers := [], enable_user_sync := true,
    enable_message_forwarding := true, enable_server_commands := true }

/-- The registry after alice and bob have joined and alice has been kicked, her entry
not yet erased by her handler thread. -/
def sampleAfterKick : List Client :=
  (kickUser "alice".toList
    (handleClientJoin (handleClientJoin [] sampleAlice).clients sampleBob).clients).1

/-- The sample registry with `clients_mutex` free and no unguarded write counted. -/
def sampleGuarded : GuardedRegistry :=
  { clients := sampleRegistry, held := false, unguarded := 0 }

/-- A message whose payload holds two `|` characters. -/
def samplePipedMessage : ServerMessage :=
  { type := ServerMessageType.MSG_FORWARD_PUBLIC, server_id := "S1".toList,
    target_server_id := "S2".toList, timestamp := 5999999999, payload := "a|b|c".toList }

/-- A connection that is still connected, was last active at tick `400000000000`, and
whose peer has gone silent. -/
def sampleStalePeer : InterServerConnection :=
  { connection_socket := 23, server_id := "10.0.0.9:9090".toList, host := "10.0.0.9".toList,
    port := 9090, connected := true, last_activity := 400000000000 }

/-- A manager federated with the first sample peer and the stale one. -/
def sampleStaleManager : ServerManager :=
  { connections :=
      [("10.0.0.7:9090".toList, samplePeerA), ("10.0.0.9:9090".toList, sampleStalePeer)],
    message_queue := [], total_messages_sent := 7, total_messages_received := 0,
    running := true }

/-- The sample manager after `INT_MAX` counted messages. -/
def sampleManagerAtIntMax : ServerManager :=
  { sampleManager with total_messages_sent := 2147483647 }

/-! # Theorems -/

/-! ## Library layer -/

theorem isdigit_digitChar : ∀ d, d < 10 → isdigit (digitChar d) = true := by decide

theorem digitVal_digitChar : ∀ d, d < 10 → digitVal (digitChar d) = d := by decide

theorem isdigit_not_special (c : Char) (h : isdigit c = true) :
    isspace c = false ∧ c ≠ '-' ∧ c ≠ '+' ∧ c ≠ '|' := by
  refine ⟨?_, ?_, ?_, ?_⟩
  · cases hs : isspace c with
    | false => rfl
    | true =>
      exfalso
      simp only [isspace, Bool.or_eq_true, beq_iff_eq] at hs
      rcases hs with ((((h1 | h1) | h1) | h1) | h1) | h1 <;> subst h1 <;> revert h <;> decide
  all_goals
    intro hc
    subst hc
    revert h
    decide

theorem digitsVal_append_single (ds : Str) (c : Char) :
    digitsVal (ds ++ [c]) = digitsVal ds * 10 + digitVal c := by
  simp [digitsVal, List.foldl_append]

theorem natToDecFuel_digits : ∀ fuel n, ∀ c ∈ natToDecFuel fuel n, isdigit c = true := by
  intro fuel
  induction fuel with
  | zero => intro n c hc; simp [natToDecFuel] at hc
  | succ f ih =>
    intro n c hc
    unfold natToDecFuel at hc
    split at hc
    · rename_i hlt
      simp only [List.mem_singleton] at hc
      subst hc
      exact isdigit_digitChar n hlt
    · simp only [List.mem_append, List.mem_singleton] at hc
      rcases hc with hc | hc
      · exact ih _ c hc
      · subst hc
        exact isdigit_digitChar _ (Nat.mod_lt _ (by decide))

theorem natToDecFuel_ne_nil : ∀ fuel n, 0 < fuel → natToDecFuel fuel n ≠ [] := by
  intro fuel n hf
  cases fuel with
  | zero => omega
  | succ f =>
    unfold natToDecFuel
    split <;> simp

theorem digitsVal_natToDecFuel : ∀ fuel n, n < fuel → digitsVal (natToDecFuel fuel n) = n := by
  intro fuel
  induction fuel with
  | zero => intro n h; omega
  | succ f ih =>
    intro n h
    unfold natToDecFuel
    split
    · rename_i hlt
      simp [digitsVal, digitVal_digitChar n hlt]
    · rename_i hge
      rw [digitsVal_append_single, ih (n / 10) (by omega),
        digitVal_digitChar _ (Nat.mod_lt _ (by decide))]
      omega

theorem natToDec_digits (n : Nat) : ∀ c ∈ natToDec n, isdigit c = true :=
  natToDecFuel_digits _ _

theorem natToDec_ne_nil (n : Nat) : natToDec n ≠ [] :=
  natToDecFuel_ne_nil _ _ (Nat.succ_pos n)

theorem digitsVal_natToDec (n : Nat) : digitsVal (natToDec n) = n :=
  digitsVal_natToDecFuel _ _ (Nat.lt_succ_self n)

theorem takeWhile_isdigit_natToDec (n : Nat) : (natToDec n).takeWhile isdigit = natToDec n := by
  rw [List.takeWhile_eq_self_iff]
  exact natToDec_digits n

theorem stripSign_of_not_sign (c : Char) (cs : Str) (h2 : c ≠ '-') (h3 : c ≠ '+') :
    stripSign (c :: cs) = (false, c :: cs) := by
  unfold stripSign
  split
  · rename_i heq
    simp only [List.cons.injEq] at heq
    exact absurd heq.1 h2
  · rename_i heq
    simp only [List.cons.injEq] at heq
    exact absurd heq.1 h3
  · rfl

/-- Parsing a non-negative printed integer gives the integer back. -/
theorem strtoBase10_natToDec (n : Nat) : strtoBase10 (natToDec n) = some (n : Int) := by
  obtain ⟨c, cs, hcs⟩ := List.exists_cons_of_ne_nil (natToDec_ne_nil n)
  have hc : isdigit c = true := natToDec_digits n c (by simp [hcs])
  obtain ⟨h1, h2, h3, _⟩ := isdigit_not_special c hc
  have htw := takeWhile_isdigit_natToDec n
  have hv := digitsVal_natToDec n
  rw [hcs] at htw hv
  have hd : List.dropWhile isspace (c :: cs) = c :: cs := by
    simp [List.dropWhile_cons, h1]
  unfold strtoBase10
  rw [hcs, hd, stripSign_of_not_sign c cs h2 h3]
  simp only [htw, hv]
  simp

/-- Parsing a negative printed integer gives the integer back. -/
theorem strtoBase10_minus_natToDec (n : Nat) :
    strtoBase10 ('-' :: natToDec n) = some (-(n : Int)) := by
  have htw := takeWhile_isdigit_natToDec n
  have hv := digitsVal_natToDec n
  have hne := natToDec_ne_nil n
  have hd : List.dropWhile isspace ('-' :: natToDec n) = '-' :: natToDec n := by
    simp [List.dropWhile_cons, isspace]
  have hs : stripSign ('-' :: natToDec n) = (true, natToDec n) := rfl
  unfold strtoBase10
  rw [hd, hs]
  simp only [htw, hv]
  simp [hne]

theorem strtoBase10_intToDec (v : Int) : strtoBase10 (intToDec v) = some v := by
  unfold intToDec
  split
  · rw [strtoBase10_minus_natToDec]
    congr 1
    omega
  · rw [strtoBase10_natToDec]
    congr 1
    omega

theorem stoi_intToDec (v : Int) (h : inInt v) : stoi (intToDec v) = .ok v := by
  simp [stoi, strtoBase10_intToDec, h]

theorem stoll_intToDec (v : Int) (h : inLongLong v) : stoll (intToDec v) = .ok v := by
  simp [stoll, strtoBase10_intToDec, h]

theorem intToDec_no_bar (v : Int) : '|' ∉ intToDec v := by
  intro hmem
  have hnat : ∀ n, '|' ∉ natToDec n := by
    intro n hm
    have := natToDec_digits n _ hm
    revert this
    decide
  unfold intToDec at hmem
  split at hmem
  · simp only [List.mem_cons] at hmem
    rcases hmem with h | h
    · revert h; decide
    · exact hnat _ h
  · exact hnat _ hmem

theorem intToDec_ne_nil (v : Int) : intToDec v ≠ [] := by
  unfold intToDec
  split
  · simp
  · exact natToDec_ne_nil _

theorem readUntil_append_delim (d : Char) (a rest : Str) (h : d ∉ a) :
    readUntil d (a ++ d :: rest) = (a, rest) := by
  induction a with
  | nil => simp [readUntil]
  | cons c cs ih =>
    simp only [List.mem_cons, not_or] at h
    have hc : c ≠ d := fun e => h.1 e.symm
    simp [readUntil, hc, ih h.2]

theorem readUntil_no_delim (d : Char) (a : Str) (h : d ∉ a) : readUntil d a = (a, []) := by
  induction a with
  | nil => simp [readUntil]
  | cons c cs ih =>
    simp only [List.mem_cons, not_or] at h
    have hc : c ≠ d := fun e => h.1 e.symm
    simp [readUntil, hc, ih h.2]

theorem readUntil_rest_length (d : Char) (s : Str) :
    (readUntil d s).2.length ≤ s.length - 1 := by
  induction s with
  | nil => simp [readUntil]
  | cons c cs ih =>
    unfold readUntil
    split
    · simp
    · simp only [List.length_cons, Nat.add_sub_cancel]
      omega

/-- The split loop does not depend on its iteration bound once the bound exceeds the
number of unread characters: the loop always ends by reaching the end of the stream. -/
theorem splitLoop_fuel : ∀ (f g : Nat) (s : Str), s.length < f → s.length < g →
    splitLoop f s = splitLoop g s := by
  intro f
  induction f with
  | zero => intro g s h; omega
  | succ f ih =>
    intro g s hf hg
    cases g with
    | zero => omega
    | succ g =>
      cases s with
      | nil => simp [splitLoop, getline]
      | cons c cs =>
        have hlen := readUntil_rest_length '|' (c :: cs)
        simp only [List.length_cons, Nat.add_sub_cancel] at hlen hf hg
        simp only [splitLoop, getline]
        rw [ih g _ (by omega) (by omega)]

theorem splitTokens_nil : splitTokens [] = [] := rfl

theorem splitTokens_cons (a rest : Str) (h : '|' ∉ a) :
    splitTokens (a ++ '|' :: rest) = a :: splitTokens rest := by
  unfold splitTokens
  have hne : a ++ '|' :: rest ≠ [] := by simp
  obtain ⟨c, cs, hcs⟩ := List.exists_cons_of_ne_nil hne
  have hr := readUntil_append_delim '|' a rest h
  rw [hcs] at hr
  have key : ∀ k, splitLoop (k + 1) (c :: cs) = a :: splitLoop k rest := by
    intro k
    simp only [splitLoop, getline, hr]
  have hl : (a ++ '|' :: rest).length + 1 = (a.length + rest.length + 1) + 1 := by
    simp; omega
  rw [hl, hcs, key]
  rw [splitLoop_fuel _ (rest.length + 1) rest (by omega) (by omega)]

theorem splitTokens_single (a : Str) (h : '|' ∉ a) (hne : a ≠ []) : splitTokens a = [a] := by
  unfold splitTokens
  obtain ⟨c, cs, hcs⟩ := List.exists_cons_of_ne_nil hne
  have hr := readUntil_no_delim '|' a h
  rw [hcs] at hr
  rw [hcs]
  cases hl : (c :: cs).length with
  | zero => simp at hl
  | succ k => simp [splitLoop, getline, hr]

/-- The tokens of a text whose last field is empty: the trailing delimiter ends the last
token and no empty token follows it. -/
theorem splitTokens_trailing (a : Str) (h : '|' ∉ a) : splitTokens (a ++ ['|']) = [a] := by
  rw [splitTokens_cons a [] h, splitTokens_nil]

theorem readUntil_spec (s : Str) :
    (s = (readUntil '|' s).1 ++ '|' :: (readUntil '|' s).2) ∨
    (s = (readUntil '|' s).1 ∧ (readUntil '|' s).2 = []) := by
  induction s with
  | nil => right; simp [readUntil]
  | cons c cs ih =>
    unfold readUntil
    split
    · rename_i hc
      left
      simp [hc]
    · rcases ih with h | ⟨h1, h2⟩
      · left
        simp only [List.cons_append, List.cons.injEq, true_and]
        exact h
      · right
        exact ⟨by simp only [List.cons.injEq, true_and]; exact h1, h2⟩

/-- The split loop never yields more tokens than there are delimiters, plus one: a text
with fewer than `k` fields in the usual sense also has fewer than `k` tokens. -/
theorem splitLoop_length_le_count : ∀ (f : Nat) (s : Str),
    (splitLoop f s).length ≤ s.count '|' + 1 := by
  intro f
  induction f with
  | zero => intro s; simp [splitLoop]
  | succ f ih =>
    intro s
    cases s with
    | nil => simp [splitLoop, getline]
    | cons c cs =>
      simp only [splitLoop, getline, List.length_cons]
      rcases readUntil_spec (c :: cs) with h | ⟨_, h2⟩
      · have hcount : (c :: cs).count '|' =
            ((readUntil '|' (c :: cs)).1 ++ '|' :: (readUntil '|' (c :: cs)).2).count '|' := by
          rw [← h]
        rw [hcount, List.count_append, List.count_cons_self]
        have := ih (readUntil '|' (c :: cs)).2
        omega
      · rw [h2]
        cases f <;> simp [splitLoop, getline]

theorem splitTokens_length_le_count (s : Str) : (splitTokens s).length ≤ s.count '|' + 1 :=
  splitLoop_length_le_count _ s

/-! ## Time points -/

theorem secondsSinceEpoch_inLongLong (t : Int) (h : inLongLong t) :
    inLongLong (secondsSinceEpoch t) := by
  unfold inLongLong LLONG_MIN LLONG_MAX at *
  unfold secondsSinceEpoch ticksPerSecond
  split <;> omega

/-- Converting the whole seconds of a time point back to a time point gives the time
point truncated to whole seconds; the 64-bit multiplication does not overflow. -/
theorem timePointOfSeconds_secondsSinceEpoch (t : Int) (h : inLongLong t) :
    timePointOfSeconds (secondsSinceEpoch t) = truncateToSeconds t := by
  unfold inLongLong LLONG_MIN LLONG_MAX at h
  unfold timePointOfSeconds truncateToSeconds wrapLongLong secondsSinceEpoch ticksPerSecond
  split <;> omega

/-! ## The codec -/

/-- The tokens read back from a serialized message: the four header fields, then the
tokens of the payload. -/
theorem splitTokens_serializeServerMessage (m : ServerMessage)
    (h1 : '|' ∉ m.server_id) (h2 : '|' ∉ m.target_server_id) :
    splitTokens (serializeServerMessage m) =
      intToDec m.type.code :: m.server_id :: m.target_server_id ::
        intToDec (secondsSinceEpoch m.timestamp) :: splitTokens m.payload := by
  unfold serializeServerMessage
  simp only [List.append_assoc, List.singleton_append, List.cons_append, List.nil_append]
  rw [splitTokens_cons _ _ (intToDec_no_bar _), splitTokens_cons _ _ h1,
    splitTokens_cons _ _ h2, splitTokens_cons _ _ (intToDec_no_bar _)]

/-- Round trip of a message with a non-empty payload free of `|`. -/
theorem serverMessage_roundtrip_nonempty (m : ServerMessage) (hw : m.WellTyped)
    (h1 : '|' ∉ m.server_id) (h2 : '|' ∉ m.target_server_id) (h3 : '|' ∉ m.payload)
    (hne : m.payload ≠ []) :
    deserializeServerMessage (serializeServerMessage m) =
      .ok { m with timestamp := truncateToSeconds m.timestamp } := by
  unfold deserializeServerMessage
  rw [splitTokens_serializeServerMessage m h1 h2, splitTokens_single _ h3 hne]
  simp only [List.length_cons, List.length_nil, List.getD_cons_zero, List.getD_cons_succ]
  rw [stoi_intToDec _ hw.1, stoll_intToDec _ (secondsSinceEpoch_inLongLong _ hw.2)]
  simp [bind, Except.bind, pure, Except.pure, timePointOfSeconds_secondsSinceEpoch _ hw.2]

/-- A serialized message with an empty payload is rejected by the decoder. -/
theorem serverMessage_empty_payload_rejected (m : ServerMessage)
    (h1 : '|' ∉ m.server_id) (h2 : '|' ∉ m.target_server_id) (he : m.payload = []) :
    deserializeServerMessage (serializeServerMessage m) =
      .error (.runtime_error "Invalid message format") := by
  unfold deserializeServerMessage
  rw [splitTokens_serializeServerMessage m h1 h2, he, splitTokens_nil]
  simp

/-- The tokens read back from a serialized descriptor are its eight fields. -/
theorem splitTokens_serializeServerInfo (info : ServerInfo)
    (h1 : '|' ∉ info.server_id) (h2 : '|' ∉ info.server_name) (h3 : '|' ∉ info.host) :
    splitTokens (serializeServerInfo info) =
      [info.server_id, info.server_name, info.host, intToDec info.port,
        intToDec info.max_clients, intToDec info.current_clients,
        intToDec (secondsSinceEpoch info.last_seen),
        if info.is_connected then ['1'] else ['0']] := by
  unfold serializeServerInfo
  simp only [List.append_assoc, List.singleton_append, List.cons_append, List.nil_append]
  rw [splitTokens_cons _ _ h1, splitTokens_cons _ _ h2, splitTokens_cons _ _ h3,
    splitTokens_cons _ _ (intToDec_no_bar _), splitTokens_cons _ _ (intToDec_no_bar _),
    splitTokens_cons _ _ (intToDec_no_bar _), splitTokens_cons _ _ (intToDec_no_bar _)]
  cases info.is_connected <;> rfl

theorem strtoBase10_none_of_not_startsWithInteger (s : Str)
    (h : startsWithInteger s = false) : strtoBase10 s = none := by
  unfold startsWithInteger at h
  unfold strtoBase10
  cases hr : (stripSign (s.dropWhile isspace)).2 with
  | nil => simp only [hr]; simp
  | cons c cs =>
    rw [hr] at h
    simp only at h
    simp only [hr]
    simp [List.takeWhile_cons, h]

theorem stoi_invalid_of_not_startsWithInteger (s : Str) (h : startsWithInteger s = false) :
    stoi s = .error .invalid_argument := by
  simp [stoi, strtoBase10_none_of_not_startsWithInteger s h]

/-! ## Claims about the codec -/

/-- C1 (evaluation at the failing input). The message
`ServerMessage(SERVER_HANDSHAKE, "SERVER_A")`, built with the constructor's default empty
payload and stamped 5 s after the epoch, serializes to `100|SERVER_A||5|`; the split loop
reads only four tokens from that text, so the decoder throws "Invalid message format"
instead of returning the message. -/
theorem serverMessage_roundtrip_fails_on_empty_payload :
    serializeServerMessage
        { type := ServerMessageType.SERVER_HANDSHAKE, server_id := "SERVER_A".toList,
          target_server_id := [], timestamp := 5000000000, payload := [] }
      = "100|SERVER_A||5|".toList ∧
    splitTokens "100|SERVER_A||5|".toList
      = ["100".toList, "SERVER_A".toList, [], "5".toList] ∧
    deserializeServerMessage (serializeServerMessage
        { type := ServerMessageType.SERVER_HANDSHAKE, server_id := "SERVER_A".toList,
          target_server_id := [], timestamp := 5000000000, payload := [] })
      = .error (.runtime_error "Invalid message format") := by
  decide

/-- C2. For every `ServerInfo` (with `int` and 64-bit field values) whose `server_id`,
`server_name` and `host` contain no `|`, decoding its serialization succeeds and returns
the same descriptor, `last_seen` being truncated to whole seconds. -/
theorem serverInfo_roundtrip (info : ServerInfo) (hw : info.WellTyped)
    (h1 : '|' ∉ info.server_id) (h2 : '|' ∉ info.server_name) (h3 : '|' ∉ info.host) :
    deserializeServerInfo (serializeServerInfo info) =
      .ok { info with last_seen := truncateToSeconds info.last_seen } := by
  obtain ⟨hp, hm, hc, ht⟩ := hw
  unfold deserializeServerInfo
  rw [splitTokens_serializeServerInfo info h1 h2 h3]
  simp only [List.length_cons, List.length_nil, List.getD_cons_zero, List.getD_cons_succ]
  rw [stoi_intToDec _ hp, stoi_intToDec _ hm, stoi_intToDec _ hc,
    stoll_intToDec _ (secondsSinceEpoch_inLongLong _ ht)]
  simp only [bind, Except.bind, pure, Except.pure, timePointOfSeconds_secondsSinceEpoch _ ht]
  cases hcon : info.is_connected <;> simp [hcon]

/-- C2 (witness): a connected descriptor whose `last_seen` is not a whole number of
seconds. -/
theorem serverInfo_roundtrip_witness :
    deserializeServerInfo (serializeServerInfo
        { server_id := "S1".toList, server_name := "Main Server".toList,
          host := "127.0.0.1".toList, port := 8081, max_clients := 50, current_clients := 3,
          last_seen := 1700000000123456789, is_connected := true })
      = .ok { server_id := "S1".toList, server_name := "Main Server".toList,
              host := "127.0.0.1".toList, port := 8081, max_clients := 50,
              current_clients := 3, last_seen := 1700000000000000000,
              is_connected := true } :=
  serverInfo_roundtrip _ (by decide) (by decide) (by decide) (by decide)

/-- C3. A text from which the split loop reads fewer than 5 tokens makes
`deserializeServerMessage` throw `runtime_error("Invalid message format")`, and a text
with fewer than 8 tokens makes `deserializeServerInfo` throw
`runtime_error("Invalid server info format")`: no object is returned. -/
theorem deserialize_too_few_fields (data : Str) :
    ((splitTokens data).length < 5 →
      deserializeServerMessage data = .error (.runtime_error "Invalid message format")) ∧
    ((splitTokens data).length < 8 →
      deserializeServerInfo data = .error (.runtime_error "Invalid server info format")) := by
  constructor
  · intro h
    simp [deserializeServerMessage, h]
  · intro h
    simp [deserializeServerInfo, h]

/-- C3 (witness): a message text with four fields and a descriptor text with seven. -/
theorem deserialize_too_few_fields_witness :
    ((splitTokens "100|A|B|5".toList).length < 5 ∧
      deserializeServerMessage "100|A|B|5".toList
        = .error (.runtime_error "Invalid message format")) ∧
    ((splitTokens "S1|n|h|80|50|3|5".toList).length < 8 ∧
      deserializeServerInfo "S1|n|h|80|50|3|5".toList
        = .error (.runtime_error "Invalid server info format")) :=
  ⟨⟨by decide, (deserialize_too_few_fields _).1 (by decide)⟩,
   ⟨by decide, (deserialize_too_few_fields _).2 (by decide)⟩⟩

/-- C4 (counterexample). The type field `12abc` and the port field `80x` are not
entirely decimal integers, yet both texts decode to a value: `std::stoi` converts the
leading digits and ignores what follows them. -/
theorem deserialize_accepts_trailing_characters :
    ("12abc".toList.all isdigit = false ∧
      deserializeServerMessage "12abc|A|B|5|hi".toList
        = .ok { type := ⟨12⟩, server_id := "A".toList, target_server_id := "B".toList,
                timestamp := 5000000000, payload := "hi".toList }) ∧
    ("80x".toList.all isdigit = false ∧
      deserializeServerInfo "S1|n|h|80x|50|3|5|1".toList
        = .ok { server_id := "S1".toList, server_name := "n".toList, host := "h".toList,
                port := 80, max_clients := 50, current_clients := 3,
                last_seen := 5000000000, is_connected := true }) := by
  decide

/-- C4 (amended). With the required number of tokens, decoding throws whenever a numeric
field (the message type; the descriptor port, max-clients or current-clients) has no
leading decimal integer, that is, whenever the field does not start, after optional
white space and one optional sign, with a decimal digit. -/
theorem deserialize_fails_without_leading_integer (data : Str) :
    (5 ≤ (splitTokens data).length →
      startsWithInteger ((splitTokens data).getD 0 []) = false →
      deserializeServerMessage data = .error .invalid_argument) ∧
    (8 ≤ (splitTokens data).length →
      (startsWithInteger ((splitTokens data).getD 3 []) = false ∨
       startsWithInteger ((splitTokens data).getD 4 []) = false ∨
       startsWithInteger ((splitTokens data).getD 5 []) = false) →
      ∃ e, deserializeServerInfo data = .error e) := by
  constructor
  · intro hlen h
    have hl : ¬ (splitTokens data).length < 5 := by omega
    unfold deserializeServerMessage
    simp only [hl, if_false]
    rw [stoi_invalid_of_not_startsWithInteger _ h]
    rfl
  · intro hlen h
    have hl : ¬ (splitTokens data).length < 8 := by omega
    unfold deserializeServerInfo
    simp only [hl, if_false]
    rcases h with h | h | h
    · rw [stoi_invalid_of_not_startsWithInteger _ h]
      exact ⟨_, rfl⟩
    · rw [stoi_invalid_of_not_startsWithInteger _ h]
      cases stoi ((splitTokens data).getD 3 []) <;> exact ⟨_, rfl⟩
    · rw [stoi_invalid_of_not_startsWithInteger _ h]
      cases stoi ((splitTokens data).getD 3 []) <;>
        cases stoi ((splitTokens data).getD 4 []) <;> exact ⟨_, rfl⟩

/-- C4 (witness): the type field `abc` and the max-clients field `x5`. -/
theorem deserialize_fails_without_leading_integer_witness :
    deserializeServerMessage "abc|A|B|5|hi".toList = .error .invalid_argument ∧
    ∃ e, deserializeServerInfo "S1|n|h|80|x5|3|5|1".toList = .error e :=
  ⟨(deserialize_fails_without_leading_integer _).1 (by decide) (by decide),
   (deserialize_fails_without_leading_integer _).2 (by decide) (Or.inr (Or.inl (by decide)))⟩

/-- C5. The serialization of a message is its type code in decimal, `server_id`,
`target_server_id`, the whole seconds since the epoch of `timestamp` in decimal, and
`payload`, in that order, joined by single `|` characters; the decimal texts read back
as the numbers they print; and the enumerators have the codes 100..104, 200..202,
300..303, 400..403 and 500..503. -/
theorem serializeServerMessage_format (m : ServerMessage) :
    serializeServerMessage m =
      List.intercalate ['|']
        [intToDec m.type.code, m.server_id, m.target_server_id,
          intToDec (secondsSinceEpoch m.timestamp), m.payload] ∧
    strtoBase10 (intToDec m.type.code) = some m.type.code ∧
    strtoBase10 (intToDec (secondsSinceEpoch m.timestamp))
      = some (secondsSinceEpoch m.timestamp) ∧
    (ServerMessageType.SERVER_HANDSHAKE.code = 100 ∧
     ServerMessageType.SERVER_HANDSHAKE_ACK.code = 101 ∧
     ServerMessageType.SERVER_REGISTER.code = 102 ∧
     ServerMessageType.SERVER_REGISTER_ACK.code = 103 ∧
     ServerMessageType.SERVER_DISCONNECT.code = 104) ∧
    (ServerMessageType.MSG_FORWARD_PUBLIC.code = 200 ∧
     ServerMessageType.MSG_FORWARD_PRIVATE.code = 201 ∧
     ServerMessageType.MSG_FORWARD_BROADCAST.code = 202) ∧
    (ServerMessageType.USER_JOIN_SERVER.code = 300 ∧
     ServerMessageType.USER_LEAVE_SERVER.code = 301 ∧
     ServerMessageType.USER_LIST_REQUEST.code = 302 ∧
     ServerMessageType.USER_LIST_RESPONSE.code = 303) ∧
    (ServerMessageType.SERVER_STATUS_REQUEST.code = 400 ∧
     ServerMessageType.SERVER_STATUS_RESPONSE.code = 401 ∧
     ServerMessageType.SERVER_LIST_REQUEST.code = 402 ∧
     ServerMessageType.SERVER_LIST_RESPONSE.code = 403) ∧
    (ServerMessageType.ERROR_INVALID_MESSAGE.code = 500 ∧
     ServerMessageType.ERROR_AUTHENTICATION_FAILED.code = 501 ∧
     ServerMessageType.ERROR_SERVER_FULL.code = 502 ∧
     ServerMessageType.ERROR_SERVER_NOT_FOUND.code = 503) := by
  refine ⟨?_, strtoBase10_intToDec _, strtoBase10_intToDec _, ?_, ?_, ?_, ?_, ?_⟩
  · simp [serializeServerMessage, List.intercalate]
  all_goals decide

/-! ## The client session registry -/

theorem broadcastLoop_eq_map_filter (full : Str) (exclude : Option Nat) (clients : List Client) :
    broadcastLoop full exclude clients =
      (clients.filter (fun c => c.active && decide (some c.addr ≠ exclude))).map
        (fun c => (c.socket, full)) := by
  induction clients with
  | nil => rfl
  | cons c rest ih =>
    unfold broadcastLoop
    by_cases h : (c.active && decide (some c.addr ≠ exclude)) = true
    · rw [if_pos h, ih]
      simp only [List.filter_cons, h, if_true, List.map_cons]
    · rw [if_neg h, ih]
      simp only [List.filter_cons, h, Bool.false_eq_true, if_false]

theorem sendPrivateMessageLoop_not_found (sender : Client) (target text : Str) :
    ∀ clients : List Client, (∀ c ∈ clients, ¬ (c.active = true ∧ c.username = target)) →
      sendPrivateMessageLoop sender target text clients =
        [(sender.socket, "User '".toList ++ target ++ "' not found.\n".toList)] := by
  intro clients
  induction clients with
  | nil => intro _; rfl
  | cons x rest ih =>
    intro h
    have hx : ¬ ((x.active && decide (x.username = target)) = true) := by
      simpa using h x (List.mem_cons_self x rest)
    unfold sendPrivateMessageLoop
    rw [if_neg hx]
    exact ih (fun c hc => h c (List.mem_cons_of_mem x hc))

theorem sendPrivateMessageLoop_found (sender : Client) (target text : Str) :
    ∀ clients : List Client, UniqueActiveUsernames clients →
      ∀ c ∈ clients, c.active = true → c.username = target →
      sendPrivateMessageLoop sender target text clients =
        [(c.socket,
            "[PRIVATE from ".toList ++ sender.username ++ "]: ".toList ++ text ++ "\n".toList),
         (sender.socket,
            "[PRIVATE to ".toList ++ target ++ "]: ".toList ++ text ++ "\n".toList)] := by
  intro clients
  induction clients with
  | nil => intro _ c hc; simp at hc
  | cons x rest ih =>
    intro huniq c hc hact hname
    unfold UniqueActiveUsernames at huniq
    rw [List.pairwise_cons] at huniq
    unfold sendPrivateMessageLoop
    by_cases hx : (x.active && decide (x.username = target)) = true
    · rw [if_pos hx]
      simp only [Bool.and_eq_true, decide_eq_true_eq] at hx
      rcases List.mem_cons.mp hc with hcx | hcr
      · rw [hcx]
      · exact absurd (hx.2.trans hname.symm) (huniq.1 c hcr hx.1 hact)
    · rw [if_neg hx]
      rcases List.mem_cons.mp hc with hcx | hcr
      · exfalso
        apply hx
        rw [← hcx]
        simp [hact, hname]
      · exact ih huniq.2 c hcr hact hname

theorem takeWhile_append_stop (p : Char → Bool) (a : Str) (b : Char) (r : Str)
    (ha : ∀ x ∈ a, p x = true) (hb : p b = false) :
    (a ++ b :: r).takeWhile p = a ∧ (a ++ b :: r).dropWhile p = b :: r := by
  induction a with
  | nil => simp [List.takeWhile_cons, List.dropWhile_cons, hb]
  | cons x xs ih =>
    have hx : p x = true := ha x (List.mem_cons_self x xs)
    have := ih (fun y hy => ha y (List.mem_cons_of_mem x hy))
    simp [List.takeWhile_cons, List.dropWhile_cons, hx, this.1, this.2]

/-- The line `/pm <target> <text>` reaches `sendPrivateMessage(sender, target, text)`. -/
theorem processMessage_pm (now : Str) (clients : List Client) (sender : Client)
    (target text : Str) (htne : target ≠ []) (htarget : ∀ ch ∈ target, isspace ch = false)
    (htext : '\n' ∉ text) :
    processMessage now clients sender ("/pm ".toList ++ target ++ ' ' :: text) =
      (clients, sendPrivateMessage clients sender target text) := by
  obtain ⟨t, ts, hts⟩ := List.exists_cons_of_ne_nil htne
  have htsp : isspace t = false := htarget t (by simp [hts])
  have hw2 := takeWhile_append_stop (fun c => !isspace c) target ' ' text
    (by intro x hx; simp [htarget x hx]) (by decide)
  have hline : '\n' ∉ ' ' :: text := by
    simp only [List.mem_cons, not_or]
    exact ⟨by decide, htext⟩
  have hrd := readUntil_no_delim '\n' (' ' :: text) hline
  have hcmd : IStringStream.extractWord ⟨"/pm ".toList ++ target ++ ' ' :: text, true⟩
      = ("/pm".toList, ⟨' ' :: (target ++ ' ' :: text), true⟩) := by
    simp [IStringStream.extractWord, List.dropWhile_cons, List.takeWhile_cons, isspace]
  have htgt : IStringStream.extractWord ⟨' ' :: (target ++ ' ' :: text), true⟩
      = (target, ⟨' ' :: text, true⟩) := by
    have hdw : List.dropWhile isspace (' ' :: (target ++ ' ' :: text))
        = target ++ ' ' :: text := by
      have hsp : isspace ' ' = true := by decide
      rw [hts]
      simp only [List.dropWhile_cons, List.cons_append, hsp, htsp, if_true,
        Bool.false_eq_true, if_false]
    simp only [IStringStream.extractWord, if_true, hdw, hw2.1, hw2.2]
    simp [hts]
  unfold processMessage
  have hhead : ("/pm ".toList ++ target ++ ' ' :: text).head? = some '/' := rfl
  rw [if_pos hhead]
  simp only [hcmd, htgt, IStringStream.getlineText, if_true, hrd]
  simp

/-- C8. `sendPrivateMessage(sender, target, text)`, in a registry with at most one active
session per username: when an active session named `target` exists, the calls made are
exactly one send to that session, of the line `[PRIVATE from <sender's username>]: <text>`,
and one send to the sender, of the confirmation `[PRIVATE to <target>]: <text>`; when no
active session has that username, the only call is the send of `User '<target>' not found.`
to the sender. In both cases no other socket is written to. The line `/pm <target> <text>`
(target a non-empty word, text free of newlines) reaches this call. -/
theorem sendPrivateMessage_routes (clients : List Client) (sender : Client)
    (target text : Str) :
    (UniqueActiveUsernames clients →
      ∀ c ∈ clients, c.active = true → c.username = target →
        sendPrivateMessage clients sender target text =
          [(c.socket,
              "[PRIVATE from ".toList ++ sender.username ++ "]: ".toList ++ text
                ++ "\n".toList),
           (sender.socket,
              "[PRIVATE to ".toList ++ target ++ "]: ".toList ++ text ++ "\n".toList)] ∧
        text <:+: "[PRIVATE from ".toList ++ sender.username ++ "]: ".toList ++ text
                ++ "\n".toList ∧
        text <:+: "[PRIVATE to ".toList ++ target ++ "]: ".toList ++ text ++ "\n".toList ∧
        ∀ socket, socket ≠ c.socket → socket ≠ sender.socket →
          deliveries (sendPrivateMessage clients sender target text) socket = []) ∧
    ((∀ c ∈ clients, ¬ (c.active = true ∧ c.username = target)) →
      sendPrivateMessage clients sender target text =
        [(sender.socket, "User '".toList ++ target ++ "' not found.\n".toList)] ∧
      ∀ socket, socket ≠ sender.socket →
        deliveries (sendPrivateMessage clients sender target text) socket = []) ∧
    (∀ now : Str, target ≠ [] → (∀ ch ∈ target, isspace ch = false) → '\n' ∉ text →
      processMessage now clients sender ("/pm ".toList ++ target ++ ' ' :: text) =
        (clients, sendPrivateMessage clients sender target text)) := by
  refine ⟨?_, ?_, ?_⟩
  · intro huniq c hc hact hname
    have hlog := sendPrivateMessageLoop_found sender target text clients huniq c hc hact hname
    unfold sendPrivateMessage
    rw [hlog]
    refine ⟨rfl, ?_, ?_, ?_⟩
    · exact ⟨"[PRIVATE from ".toList ++ sender.username ++ "]: ".toList, "\n".toList, rfl⟩
    · exact ⟨"[PRIVATE to ".toList ++ target ++ "]: ".toList, "\n".toList, rfl⟩
    · intro socket h1 h2
      simp [deliveries, List.filter_cons, Ne.symm h1, Ne.symm h2]
  · intro hnone
    have hlog := sendPrivateMessageLoop_not_found sender target text clients hnone
    unfold sendPrivateMessage
    rw [hlog]
    refine ⟨rfl, ?_⟩
    intro socket h1
    simp [deliveries, List.filter_cons, Ne.symm h1]
  · intro now h1 h2 h3
    exact processMessage_pm now clients sender target text h1 h2 h3

/-- C8 (witness): alice sends `/pm bob secret` (carol is connected too), and `/pm dave hi`
to a name nobody has. -/
theorem sendPrivateMessage_routes_witness :
    (processMessage "[12:00:00]".toList sampleRegistry sampleAlice "/pm bob secret".toList
        = (sampleRegistry, sendPrivateMessage sampleRegistry sampleAlice "bob".toList
            "secret".toList) ∧
      sendPrivateMessage sampleRegistry sampleAlice "bob".toList "secret".toList
        = [(sampleBob.socket, "[PRIVATE from alice]: secret\n".toList),
           (sampleAlice.socket, "[PRIVATE to bob]: secret\n".toList)] ∧
      deliveries (sendPrivateMessage sampleRegistry sampleAlice "bob".toList "secret".toList)
        sampleCarol.socket = []) ∧
    sendPrivateMessage sampleRegistry sampleAlice "dave".toList "hi".toList
      = [(sampleAlice.socket, "User 'dave' not found.\n".toList)] :=
  have h := sendPrivateMessage_routes sampleRegistry sampleAlice "bob".toList "secret".toList
  have hfound := h.1 (by decide) sampleBob (by decide) (by decide) (by decide)
  ⟨⟨h.2.2 "[12:00:00]".toList (by decide) (by decide) (by decide), hfound.1,
      hfound.2.2.2 sampleCarol.socket (by decide) (by decide)⟩,
    ((sendPrivateMessage_routes sampleRegistry sampleAlice "dave".toList "hi".toList).2.1
      (by decide)).1⟩

theorem usernameTaken_iff (username : Str) (clients : List Client) :
    usernameTaken username clients = true ↔
      ∃ e ∈ clients, e.username = username ∧ e.active = true := by
  induction clients with
  | nil => simp [usernameTaken]
  | cons x rest ih =>
    unfold usernameTaken
    by_cases hx : x.username = username ∧ x.active = true
    · rw [if_pos hx]
      simp only [true_iff]
      exact ⟨x, List.mem_cons_self x rest, hx⟩
    · rw [if_neg hx, ih]
      constructor
      · rintro ⟨e, he, h⟩
        exact ⟨e, List.mem_cons_of_mem x he, h⟩
      · rintro ⟨e, he, h⟩
        rcases List.mem_cons.mp he with hex | her
        · exact absurd (hex ▸ h) hx
        · exact ⟨e, her, h⟩

theorem mem_setInactive (clients : List Client) (addr : Nat) (c : Client)
    (hc : c ∈ setInactive clients addr) :
    ∃ c0 ∈ clients, c.addr = c0.addr ∧ c.username = c0.username ∧
      (c.active = true → c0.active = true ∧ c = c0 ∧ c0.addr ≠ addr) := by
  unfold setInactive at hc
  rw [List.mem_map] at hc
  obtain ⟨c0, hc0, hmap⟩ := hc
  refine ⟨c0, hc0, ?_⟩
  by_cases ha : c0.addr = addr
  · rw [if_pos ha] at hmap
    subst hmap
    exact ⟨rfl, rfl, fun h => by simp at h⟩
  · rw [if_neg ha] at hmap
    subst hmap
    exact ⟨rfl, rfl, fun h => ⟨h, rfl, ha⟩⟩

theorem mem_handleClientDisconnect (clients : List Client) (p c : Client)
    (hc : c ∈ (handleClientDisconnect clients p).1) :
    c ∈ clients ∧ c.addr ≠ p.addr := by
  unfold handleClientDisconnect eraseClient at hc
  simp only [List.mem_filter, decide_eq_true_eq] at hc
  obtain ⟨c0, hc0, haddr, _, _⟩ := mem_setInactive clients p.addr c hc.1
  refine ⟨?_, hc.2⟩
  have hmem := hc.1
  unfold setInactive at hmem
  rw [List.mem_map] at hmem
  obtain ⟨c1, hc1, hmap⟩ := hmem
  by_cases ha : c1.addr = p.addr
  · rw [if_pos ha] at hmap
    exfalso
    apply hc.2
    rw [← hmap]
    exact ha
  · rw [if_neg ha] at hmap
    rw [← hmap]
    exact hc1

/-- C9. Registering a client whose username is that of a registered, active session is
rejected and leaves the registry as it was. In a registry with at most one active session
per username, once that session has gone through the disconnect path (which erases it
from the registry), registering a client with the same username succeeds and appends the
client to the registry. -/
theorem handleClientJoin_duplicate_then_free (clients : List Client)
    (existing client : Client) :
    (existing ∈ clients → existing.active = true → existing.username = client.username →
      (handleClientJoin clients client).joined = false ∧
      (handleClientJoin clients client).clients = clients) ∧
    (UniqueActiveUsernames clients → existing ∈ clients → existing.active = true →
      existing.username = client.username →
      existing ∉ (handleClientDisconnect clients existing).1 ∧
      (handleClientJoin (handleClientDisconnect clients existing).1 client).joined = true ∧
      (handleClientJoin (handleClientDisconnect clients existing).1 client).clients
        = (handleClientDisconnect clients existing).1 ++ [client]) := by
  constructor
  · intro hmem hact hname
    have htaken : usernameTaken client.username clients = true :=
      (usernameTaken_iff _ _).mpr ⟨existing, hmem, hname, hact⟩
    unfold handleClientJoin
    rw [if_pos htaken]
    exact ⟨rfl, rfl⟩
  · intro huniq hmem hact hname
    have hfree : ¬ (usernameTaken client.username (handleClientDisconnect clients existing).1
        = true) := by
      rw [usernameTaken_iff]
      rintro ⟨e, he, hen, hea⟩
      obtain ⟨hec, hne⟩ := mem_handleClientDisconnect clients existing e he
      have hsym : Symmetric (fun a b : Client =>
          a.active = true → b.active = true → a.username ≠ b.username) :=
        fun a b h hb ha e => h ha hb e.symm
      have hdiff : e ≠ existing := fun h => hne (by rw [h])
      exact List.Pairwise.forall hsym huniq hec hmem hdiff hea hact (hen.trans hname.symm)
    refine ⟨fun h => (mem_handleClientDisconnect clients existing existing h).2 rfl, ?_, ?_⟩
    · unfold handleClientJoin
      rw [if_neg hfree]
    · unfold handleClientJoin
      rw [if_neg hfree]

/-- C9 (witness): a second `alice` is turned away while alice is connected, and is let in
after alice has disconnected. -/
theorem handleClientJoin_duplicate_then_free_witness :
    ((handleClientJoin sampleRegistry sampleAlice2).joined = false ∧
      (handleClientJoin sampleRegistry sampleAlice2).clients = sampleRegistry) ∧
    (sampleAlice ∉ (handleClientDisconnect sampleRegistry sampleAlice).1 ∧
      (handleClientJoin (handleClientDisconnect sampleRegistry sampleAlice).1
        sampleAlice2).joined = true ∧
      (handleClientJoin (handleClientDisconnect sampleRegistry sampleAlice).1
        sampleAlice2).clients
        = (handleClientDisconnect sampleRegistry sampleAlice).1 ++ [sampleAlice2]) :=
  ⟨(handleClientJoin_duplicate_then_free sampleRegistry sampleAlice sampleAlice2).1
      (by decide) (by decide) (by decide),
   (handleClientJoin_duplicate_then_free sampleRegistry sampleAlice sampleAlice2).2
      (by decide) (by decide) (by decide) (by decide)⟩

/-! ## The username invariant -/

theorem uniqueActive_setInactive (clients : List Client) (addr : Nat)
    (h : UniqueActiveUsernames clients) : UniqueActiveUsernames (setInactive clients addr) := by
  unfold UniqueActiveUsernames setInactive at *
  refine List.Pairwise.map _ ?_ h
  intro a b hab ha hb
  by_cases h1 : a.addr = addr
  · rw [if_pos h1] at ha
    simp at ha
  · by_cases h2 : b.addr = addr
    · rw [if_pos h2] at hb
      simp at hb
    · rw [if_neg h1] at ha ⊢
      rw [if_neg h2] at hb ⊢
      exact hab ha hb

theorem mem_kickUser (username : Str) : ∀ (clients : List Client) (c : Client),
    c ∈ (kickUser username clients).1 →
      ∃ c0 ∈ clients, c.username = c0.username ∧ (c.active = true → c0.active = true) := by
  intro clients
  induction clients with
  | nil => intro c hc; simp [kickUser] at hc
  | cons x rest ih =>
    intro c hc
    unfold kickUser at hc
    split at hc
    · rcases List.mem_cons.mp hc with h | h
      · subst h
        exact ⟨x, List.mem_cons_self x rest, rfl, fun h => by simp at h⟩
      · exact ⟨c, List.mem_cons_of_mem x h, rfl, id⟩
    · rcases List.mem_cons.mp hc with h | h
      · subst h
        exact ⟨c, List.mem_cons_self c rest, rfl, id⟩
      · obtain ⟨c0, hc0, hn, ha⟩ := ih c h
        exact ⟨c0, List.mem_cons_of_mem x hc0, hn, ha⟩

theorem uniqueActive_kickUser (username : Str) : ∀ clients : List Client,
    UniqueActiveUsernames clients → UniqueActiveUsernames (kickUser username clients).1 := by
  intro clients
  induction clients with
  | nil => intro _; simp [kickUser, UniqueActiveUsernames]
  | cons x rest ih =>
    intro h
    unfold UniqueActiveUsernames at h
    rw [List.pairwise_cons] at h
    unfold kickUser
    split
    · unfold UniqueActiveUsernames
      rw [List.pairwise_cons]
      exact ⟨fun b _ ha => by simp at ha, h.2⟩
    · unfold UniqueActiveUsernames
      rw [List.pairwise_cons]
      refine ⟨?_, ih h.2⟩
      intro b hb hxa hba
      obtain ⟨b0, hb0, hn, ha⟩ := mem_kickUser username rest b hb
      rw [hn]
      exact h.1 b0 hb0 hxa (ha hba)

theorem uniqueActive_handleClientJoin (clients : List Client) (client : Client)
    (h : UniqueActiveUsernames clients) :
    UniqueActiveUsernames (handleClientJoin clients client).clients := by
  unfold handleClientJoin
  by_cases ht : usernameTaken client.username clients = true
  · rw [if_pos ht]
    exact h
  · rw [if_neg ht]
    unfold UniqueActiveUsernames at *
    simp only
    rw [List.pairwise_append]
    refine ⟨h, List.pairwise_singleton _ _, ?_⟩
    intro a ha b hb haa _ hname
    rw [List.mem_singleton] at hb
    subst hb
    exact ht ((usernameTaken_iff _ _).mpr ⟨a, ha, hname, haa⟩)

theorem processMessage_registry (now : Str) (clients : List Client) (sender : Client)
    (message : Str) :
    (processMessage now clients sender message).1 = clients ∨
    (processMessage now clients sender message).1 = setInactive clients sender.addr := by
  unfold processMessage
  dsimp only
  split
  · split
    · right; rfl
    · split
      · left; rfl
      · split
        · left; rfl
        · split
          · split <;> (left; rfl)
          · left; rfl
  · left; rfl

theorem uniqueActive_handleClientDisconnect (clients : List Client) (p : Client)
    (h : UniqueActiveUsernames clients) :
    UniqueActiveUsernames (handleClientDisconnect clients p).1 := by
  unfold handleClientDisconnect eraseClient
  exact List.Pairwise.filter _ (uniqueActive_setInactive clients p.addr h)

/-- C10. In every registry state reachable from the empty registry by registration steps,
`processMessage` calls (among them `/quit`), `kickUser` calls and disconnect steps, no two
distinct entries that are both active have the same username. -/
theorem reachable_unique_active_usernames (clients : List Client) (h : Reachable clients) :
    UniqueActiveUsernames clients := by
  induction h with
  | empty => exact List.Pairwise.nil
  | join clients client _ _ ih => exact uniqueActive_handleClientJoin clients client ih
  | message now clients sender message _ _ ih =>
    rcases processMessage_registry now clients sender message with h | h
    · rw [h]; exact ih
    · rw [h]; exact uniqueActive_setInactive clients sender.addr ih
  | kick clients username _ ih => exact uniqueActive_kickUser username clients ih
  | disconnect clients p _ _ ih => exact uniqueActive_handleClientDisconnect clients p ih

/-- C10 (witness): alice and bob join, alice is kicked, and a second `alice` joins while
the first one's entry is still in the registry; the registry then holds two entries named
`alice`, only one of them active. -/
theorem reachable_unique_active_usernames_witness :
    (handleClientJoin
        (kickUser "alice".toList
          (handleClientJoin (handleClientJoin [] sampleAlice).clients sampleBob).clients).1
        sampleAlice2).clients
      = [{ sampleAlice with active := false }, sampleBob, sampleAlice2] ∧
    UniqueActiveUsernames
      (handleClientJoin
        (kickUser "alice".toList
          (handleClientJoin (handleClientJoin [] sampleAlice).clients sampleBob).clients).1
        sampleAlice2).clients :=
  ⟨by decide,
   reachable_unique_active_usernames _
    (Reachable.join _ sampleAlice2
      (Reachable.kick _ "alice".toList
        (Reachable.join _ sampleBob
          (Reachable.join [] sampleAlice Reachable.empty (by decide)) (by decide)))
      (by decide))⟩

/-! ## Accepting connections -/

theorem length_setInactive (clients : List Client) (addr : Nat) :
    (setInactive clients addr).length = clients.length := by
  simp [setInactive]

theorem length_handleClientDisconnect_lt (clients : List Client) (p : Client)
    (hp : p ∈ clients) : (handleClientDisconnect clients p).1.length < clients.length := by
  unfold handleClientDisconnect eraseClient
  rw [← length_setInactive clients p.addr]
  rw [List.length_filter_lt_length_iff_exists]
  refine ⟨{ p with active := false }, ?_, by simp⟩
  unfold setInactive
  rw [List.mem_map]
  exact ⟨p, hp, by simp⟩

/-- C11. When the registry holds exactly `max_clients` entries, an accepted connection is
sent "Server full. Try again later.", no `Client` is created for it and the server state
is left as it was; after the disconnect path of a registered session has run, the next
accepted connection passes the capacity check (a `Client` is created for it and nothing
is sent). -/
theorem acceptConnection_full_then_free (max_clients : Int) (clients pending : List Client)
    (addr : Nat) (client_socket : Int) (client_ip : Str) (now : Int)
    (hmax : inInt max_clients) (hfull : (clients.length : Int) = max_clients) :
    ((acceptConnection max_clients clients addr client_socket client_ip now).client = none ∧
      (acceptConnection max_clients clients addr client_socket client_ip now).sent
        = [(client_socket, "Server full. Try again later.\n".toList)] ∧
      stepAccept max_clients { clients := clients, pending := pending } addr client_socket
          client_ip now
        = { clients := clients, pending := pending }) ∧
    (∀ p ∈ clients,
      (acceptConnection max_clients (handleClientDisconnect clients p).1 addr client_socket
          client_ip now).client
        = some { addr := addr, socket := client_socket, username := [],
                 ip_address := client_ip, join_time := now, active := true } ∧
      (acceptConnection max_clients (handleClientDisconnect clients p).1 addr client_socket
          client_ip now).sent = []) := by
  have hsize : sizeTypeOfInt max_clients = clients.length := by
    unfold sizeTypeOfInt
    unfold inInt INT_MIN INT_MAX at hmax
    omega
  have hfullcheck : clients.length ≥ sizeTypeOfInt max_clients := by omega
  have hacc : acceptConnection max_clients clients addr client_socket client_ip now
      = { client := none,
          sent := [(client_socket, "Server full. Try again later.\n".toList)] } := by
    unfold acceptConnection
    rw [if_pos hfullcheck]
  refine ⟨⟨by rw [hacc], by rw [hacc], ?_⟩, ?_⟩
  · unfold stepAccept
    rw [hacc]
  · intro p hp
    have hlt := length_handleClientDisconnect_lt clients p hp
    have hfree : ¬ ((handleClientDisconnect clients p).1.length ≥ sizeTypeOfInt max_clients) := by
      omega
    unfold acceptConnection
    rw [if_neg hfree]
    exact ⟨rfl, rfl⟩

/-- C11 (witness): a server for three clients holding the three sample sessions turns a
fourth connection away, and lets it in once bob has disconnected. -/
theorem acceptConnection_full_then_free_witness :
    (acceptConnection 3 sampleRegistry 9 10 "10.0.0.9".toList 0).client = none ∧
    (acceptConnection 3 sampleRegistry 9 10 "10.0.0.9".toList 0).sent
      = [(10, "Server full. Try again later.\n".toList)] ∧
    (acceptConnection 3 (handleClientDisconnect sampleRegistry sampleBob).1 9 10
        "10.0.0.9".toList 0).client
      = some { addr := 9, socket := 10, username := [], ip_address := "10.0.0.9".toList,
               join_time := 0, active := true } :=
  have h := acceptConnection_full_then_free 3 sampleRegistry [] 9 10 "10.0.0.9".toList 0
    (by decide) (by decide)
  ⟨h.1.1, h.1.2.1, (h.2 sampleBob (by decide)).1⟩

/-- C12 (evaluation at the failing input). A server started with `max_clients = 1`
accepts two connections while its registry is still empty (each passes the capacity
check, which looks only at the registry); both clients then send distinct usernames and
are registered, the registration step making no capacity check of its own. The registry
then holds two sessions. -/
theorem registry_exceeds_max_clients :
    ServerReachable 1 sampleOverfull ∧
    sampleTwoPending.clients = [] ∧ sampleTwoPending.pending.length = 2 ∧
    sampleOverfull.clients.map Client.username = ["alice".toList, "bob".toList] ∧
    ¬ ((sampleOverfull.clients.length : Int) ≤ 1) := by
  refine ⟨?_, by decide, by decide, by decide, by decide⟩
  exact ServerReachable.register _ 2 _
    (ServerReachable.register _ 1 _
      (ServerReachable.accept _ 2 5 _ 0
        (ServerReachable.accept _ 1 4 _ 0 ServerReachable.start)))

/-! ## Username negotiation -/

theorem eraseChar_eq_nil_of_forall (c : Char) (s : Str) (h : ∀ x ∈ s, x = c) :
    eraseChar c s = [] := by
  unfold eraseChar
  rw [List.filter_eq_nil_iff]
  intro x hx
  simp [h x hx]

/-- C13 (counterexample). A username input made of spaces, or of a tab, followed by the
line end is not replaced: only `\n` and `\r` are removed, so the session's username is the
white space that was typed. An empty read creates no session at all. -/
theorem negotiateUsername_keeps_blanks :
    negotiateUsername 4 "  \r\n".toList = some "  ".toList ∧
    negotiateUsername 4 "\t\n".toList = some "\t".toList ∧
    negotiateUsername 4 "  \r\n".toList ≠ some "Anonymous_4".toList ∧
    negotiateUsername 4 [] = none := by
  decide

/-- C13 (amended). For every non-empty username input that consists only of newline and
carriage-return characters, the username after negotiation is `Anonymous_` followed by the
decimal socket handle of the session. -/
theorem negotiateUsername_anonymous (socket : Int) (received : Str) (hne : received ≠ [])
    (hnl : ∀ c ∈ received, c = '\n' ∨ c = '\r') :
    negotiateUsername socket received = some ("Anonymous_".toList ++ intToDec socket) := by
  have hlen : ¬ (received.length ≤ 0) := by
    cases received with
    | nil => exact absurd rfl hne
    | cons c cs => simp
  have hc : cString received = received := by
    unfold cString
    rw [List.takeWhile_eq_self_iff]
    intro c hcm
    rcases hnl c hcm with h | h <;> subst h <;> decide
  have hcr : ∀ x ∈ eraseChar '\n' received, x = '\r' := by
    intro x hx
    unfold eraseChar at hx
    rw [List.mem_filter] at hx
    rcases hnl x hx.1 with h | h
    · subst h
      exact absurd hx.2 (by decide)
    · exact h
  have hempty : eraseChar '\r' (eraseChar '\n' (cString received)) = [] := by
    rw [hc]
    exact eraseChar_eq_nil_of_forall '\r' _ hcr
  unfold negotiateUsername
  rw [if_neg hlen]
  simp only [hempty, List.isEmpty_nil, if_true]

/-- C13 (witness): the client just presses return. -/
theorem negotiateUsername_anonymous_witness :
    negotiateUsername 4 "\r\n".toList = some "Anonymous_4".toList :=
  negotiateUsername_anonymous 4 "\r\n".toList (by decide) (by decide)

/-! ## Unknown commands -/

theorem extractWord_of_slash (message : Str) (h : message.head? = some '/') :
    (IStringStream.extractWord { unread := message, good := true }).1
      = message.takeWhile (fun c => !isspace c) := by
  cases message with
  | nil => simp at h
  | cons c cs =>
    simp only [List.head?_cons, Option.some.injEq] at h
    subst h
    have hd : List.dropWhile isspace ('/' :: cs) = '/' :: cs := by
      simp [List.dropWhile_cons, isspace]
    simp [IStringStream.extractWord, hd]

/-- C14. For every line that begins with `/` and whose first word (the characters up to
the first white space) is none of `/quit`, `/list`, `/help`, `/pm`, `processMessage` makes
exactly one `send`, of the "Unknown command" reply to the sender, so no other socket is
written to, and leaves the registry, hence the sender's session, as it was. -/
theorem processMessage_unknown_command (now : Str) (clients : List Client) (sender : Client)
    (message : Str) (hslash : message.head? = some '/')
    (hquit : message.takeWhile (fun c => !isspace c) ≠ "/quit".toList)
    (hlist : message.takeWhile (fun c => !isspace c) ≠ "/list".toList)
    (hhelp : message.takeWhile (fun c => !isspace c) ≠ "/help".toList)
    (hpm : message.takeWhile (fun c => !isspace c) ≠ "/pm".toList) :
    processMessage now clients sender message
      = (clients,
          [(sender.socket,
            "Unknown command. Type /help for available commands.\n".toList)]) ∧
    (∀ socket, socket ≠ sender.socket →
      deliveries (processMessage now clients sender message).2 socket = []) ∧
    (∀ c ∈ clients, c ∈ (processMessage now clients sender message).1) := by
  have hw := extractWord_of_slash message hslash
  have hproc : processMessage now clients sender message
      = (clients,
          [(sender.socket,
            "Unknown command. Type /help for available commands.\n".toList)]) := by
    unfold processMessage
    rw [if_pos hslash]
    simp only [hw]
    rw [if_neg hquit, if_neg hlist, if_neg hhelp, if_neg hpm]
  rw [hproc]
  refine ⟨rfl, ?_, fun c hc => hc⟩
  intro socket hs
  simp [deliveries, List.filter_cons, Ne.symm hs]

/-- C14 (witness): alice types `/dance now`. -/
theorem processMessage_unknown_command_witness :
    processMessage "[12:00:00]".toList sampleRegistry sampleAlice "/dance now".toList
      = (sampleRegistry,
          [(sampleAlice.socket,
            "Unknown command. Type /help for available commands.\n".toList)]) :=
  (processMessage_unknown_command "[12:00:00]".toList sampleRegistry sampleAlice
    "/dance now".toList (by decide) (by decide) (by decide) (by decide) (by decide)).1

/-! ## Broadcast over a failing transport -/

theorem broadcastLoopResults_registry (transport : Send → Int) (full : Str)
    (exclude : Option Nat) (clients : List Client) :
    (broadcastLoopResults transport full exclude clients).1 = clients := by
  induction clients with
  | nil => rfl
  | cons c rest ih =>
    unfold broadcastLoopResults
    split <;> simp [ih]

theorem broadcastLoopResults_calls (transport : Send → Int) (full : Str)
    (exclude : Option Nat) (clients : List Client) :
    (broadcastLoopResults transport full exclude clients).2
      = (broadcastLoop full exclude clients).map (fun call => (call, transport call)) := by
  induction clients with
  | nil => rfl
  | cons c rest ih =>
    unfold broadcastLoopResults broadcastLoop
    split <;> simp [ih]

/-- C15 (counterexample). The three sample sessions are broadcast to over a transport on
which the send to bob fails: the call to bob's socket returns `SOCKET_ERROR`, yet after the
broadcast bob's entry in the registry is still active (the registry is unchanged); the
send to carol, who comes after bob, is made all the same. -/
theorem broadcastMessage_ignores_send_failure :
    (((sampleBob.socket, "hi\n".toList), SOCKET_ERROR) ∈
        (broadcastMessageResults sampleTransportBobDown sampleRegistry "hi".toList none).2) ∧
    (sampleBob ∈
        (broadcastMessageResults sampleTransportBobDown sampleRegistry "hi".toList none).1) ∧
    sampleBob.active = true ∧
    (broadcastMessageResults sampleTransportBobDown sampleRegistry "hi".toList none).1
      = sampleRegistry ∧
    (((sampleCarol.socket, "hi\n".toList), 3) ∈
        (broadcastMessageResults sampleTransportBobDown sampleRegistry "hi".toList none).2) := by
  decide

/-- C15 (amended). During `broadcastMessage`, whatever the `send` calls return, a failed
send is ignored: the registry after the broadcast is the registry before it (no session
is marked inactive), and a send is attempted, in registry order, to every active
non-excluded session, each attempt being recorded with the value the transport returned
for it. -/
theorem broadcastMessage_failure_does_not_abort (transport : Send → Int)
    (clients : List Client) (message : Str) (exclude : Option Nat) :
    (broadcastMessageResults transport clients message exclude).1 = clients ∧
    (broadcastMessageResults transport clients message exclude).2.map (fun r => r.1)
      = (clients.filter (fun c => c.active && decide (some c.addr ≠ exclude))).map
          (fun c => (c.socket, message ++ ['\n'])) ∧
    (∀ r ∈ (broadcastMessageResults transport clients message exclude).2,
      r.2 = transport r.1) := by
  unfold broadcastMessageResults
  refine ⟨broadcastLoopResults_registry _ _ _ _, ?_, ?_⟩
  · rw [broadcastLoopResults_calls, broadcastLoop_eq_map_filter]
    simp [List.map_map, Function.comp]
  · intro r hr
    rw [broadcastLoopResults_calls, List.mem_map] at hr
    obtain ⟨call, _, hcall⟩ := hr
    rw [← hcall]

/-! ## The disconnect path -/

theorem not_mem_intToDec (c : Char) (hd : isdigit c = false) (hm : c ≠ '-') (v : Int) :
    c ∉ intToDec v := by
  intro hmem
  have hnat : ∀ n, c ∉ natToDec n := by
    intro n hn
    have := natToDec_digits n c hn
    rw [hd] at this
    exact absurd this (by decide)
  unfold intToDec at hmem
  split at hmem
  · rcases List.mem_cons.mp hmem with h | h
    · exact hm h
    · exact hnat _ h
  · exact hnat _ hmem

theorem intToDec_injective (v w : Int) (h : intToDec v = intToDec w) : v = w := by
  have hv := strtoBase10_intToDec v
  rw [h, strtoBase10_intToDec w] at hv
  exact (Option.some.inj hv).symm

/-- The id `host:port` determines the host and the port. -/
theorem hostPortId_injective (host1 host2 : Str) (port1 port2 : Int)
    (h : host1 ++ ":".toList ++ intToDec port1 = host2 ++ ":".toList ++ intToDec port2) :
    host1 = host2 ∧ port1 = port2 := by
  have hcolon : ∀ v, ':' ∉ (intToDec v).reverse := by
    intro v hmem
    rw [List.mem_reverse] at hmem
    exact not_mem_intToDec ':' (by decide) (by decide) v hmem
  have hrev := congrArg List.reverse h
  have hform : ∀ (host : Str) (port : Int), (host ++ ":".toList ++ intToDec port).reverse
      = (intToDec port).reverse ++ ':' :: host.reverse := by
    intro host port
    simp [List.reverse_append]
  rw [hform, hform] at hrev
  have h1 := readUntil_append_delim ':' _ host1.reverse (hcolon port1)
  have h2 := readUntil_append_delim ':' _ host2.reverse (hcolon port2)
  rw [hrev, h2] at h1
  have hpair := Prod.mk.inj h1
  exact ⟨(List.reverse_injective hpair.2).symm,
    (intToDec_injective _ _ (List.reverse_injective hpair.1)).symm⟩

theorem alreadyConnected_iff (host : Str) (port : Int) (connections : ConnectionMap) :
    alreadyConnected host port connections = true ↔
      ∃ pair ∈ connections, pair.2.host = host ∧ pair.2.port = port := by
  induction connections with
  | nil =>
    constructor
    · intro h
      have hf : alreadyConnected host port [] = false := rfl
      rw [hf] at h
      exact absurd h (by decide)
    · rintro ⟨_, hm, _⟩
      cases hm
  | cons x rest ih =>
    unfold alreadyConnected
    by_cases hx : x.2.host = host ∧ x.2.port = port
    · rw [if_pos hx]
      simp only [true_iff]
      exact ⟨x, List.mem_cons_self x rest, hx⟩
    · rw [if_neg hx, ih]
      constructor
      · rintro ⟨e, he, h⟩
        exact ⟨e, List.mem_cons_of_mem x he, h⟩
      · rintro ⟨e, he, h⟩
        rcases List.mem_cons.mp he with hex | her
        · exact absurd (hex ▸ h) hx
        · exact ⟨e, her, h⟩

/-- Assigning under a key the map does not hold adds one entry and keeps the others. -/
theorem mapAssign_perm_of_fresh (key : Str) (value : InterServerConnection) :
    ∀ connections : ConnectionMap, (∀ pair ∈ connections, pair.1 ≠ key) →
      (mapAssign key value connections).Perm ((key, value) :: connections) := by
  intro connections
  induction connections with
  | nil => intro _; exact List.Perm.refl _
  | cons x rest ih =>
    intro hfresh
    have hx : ¬ (key = x.1) := fun e => hfresh x (List.mem_cons_self x rest) e.symm
    unfold mapAssign
    rw [if_neg hx]
    split
    · exact List.Perm.refl _
    · exact ((ih (fun pair hp => hfresh pair (List.mem_cons_of_mem x hp))).cons x).trans
        (List.Perm.swap _ _ _)

theorem getConnectedServersLoop_eq_map (connections : ConnectionMap) :
    getConnectedServersLoop connections
      = connections.map (fun pair =>
          ({ server_id := pair.1, server_name := [], host := pair.2.host, port := pair.2.port,
             max_clients := 0, current_clients := 0, last_seen := pair.2.last_activity,
             is_connected := pair.2.connected } : ServerInfo)) := by
  induction connections with
  | nil => rfl
  | cons x rest ih => simp [getConnectedServersLoop, ih]

theorem connect_new_of_success (env : ConnectEnv) (host : Str) (port : Int)
    (hsock : env.socket_result ≠ INVALID_SOCKET) (hpton : 0 < env.inet_pton_result)
    (hconn : env.connect_result ≠ SOCKET_ERROR) :
    (InterServerConnection.new host port).connect env
      = (true, { connection_socket := env.socket_result,
                 server_id := host ++ ":".toList ++ intToDec port, host := host, port := port,
                 connected := true, last_activity := env.now }) := by
  unfold InterServerConnection.connect InterServerConnection.new
  simp only
  rw [if_neg hsock, if_neg (by omega), if_neg hconn]

theorem connect_new_of_failure (env : ConnectEnv) (host : Str) (port : Int)
    (hfail : env.socket_result = INVALID_SOCKET ∨ env.inet_pton_result ≤ 0 ∨
      env.connect_result = SOCKET_ERROR) :
    ((InterServerConnection.new host port).connect env).1 = false := by
  unfold InterServerConnection.connect
  simp only
  split
  · rfl
  · split
    · rfl
    · split
      · rfl
      · rename_i h1 h2 h3
        rcases hfail with h | h | h
        · exact absurd h h1
        · exact absurd h h2
        · exact absurd h h3

/-- C17. When `connectToServer(host, port)` is called on a manager that holds no
connection to that host and port (its map filing every connection under its id
`host:port`) and the transport connects, it returns `true`; the map afterwards is the
old map with exactly one entry added, the new connection filed under `host:port`, so
it is one longer and keeps every previous entry; and `getConnectedServers()` lists a
connected entry with that host and port. -/
theorem connectToServer_adds_connection (env : ConnectEnv) (mgr : ServerManager) (host : Str)
    (port : Int) (hkeys : KeysAreIds mgr.connections)
    (hnew : ∀ pair ∈ mgr.connections, ¬ (pair.2.host = host ∧ pair.2.port = port))
    (hsock : env.socket_result ≠ INVALID_SOCKET) (hpton : 0 < env.inet_pton_result)
    (hconn : env.connect_result ≠ SOCKET_ERROR) :
    (mgr.connectToServer env host port).1 = true ∧
    (mgr.connectToServer env host port).2.connections.Perm
      ((host ++ ":".toList ++ intToDec port,
        { connection_socket := env.socket_result,
          server_id := host ++ ":".toList ++ intToDec port, host := host, port := port,
          connected := true, last_activity := env.now }) :: mgr.connections) ∧
    (mgr.connectToServer env host port).2.connections.length = mgr.connections.length + 1 ∧
    (∀ pair ∈ mgr.connections, pair ∈ (mgr.connectToServer env host port).2.connections) ∧
    (∃ info ∈ (mgr.connectToServer env host port).2.getConnectedServers,
      info.host = host ∧ info.port = port ∧ info.is_connected = true) := by
  have hnot : ¬ (alreadyConnected host port mgr.connections = true) := by
    rw [alreadyConnected_iff]
    rintro ⟨pair, hp, h⟩
    exact hnew pair hp h
  have hfresh : ∀ pair ∈ mgr.connections, pair.1 ≠ host ++ ":".toList ++ intToDec port := by
    intro pair hp hkey
    rw [hkeys pair hp] at hkey
    exact hnew pair hp (hostPortId_injective _ _ _ _ hkey)
  have hcon := connect_new_of_success env host port hsock hpton hconn
  have hfst : (mgr.connectToServer env host port).1 = true := by
    unfold ServerManager.connectToServer
    rw [if_neg hnot]
    simp only [hcon, if_true]
  have hsnd : (mgr.connectToServer env host port).2.connections
      = mapAssign (host ++ ":".toList ++ intToDec port)
          ⟨env.socket_result, host ++ ":".toList ++ intToDec port, host, port, true, env.now⟩
          mgr.connections := by
    unfold ServerManager.connectToServer
    rw [if_neg hnot]
    simp only [hcon, if_true]
  have hperm := mapAssign_perm_of_fresh (host ++ ":".toList ++ intToDec port)
    ⟨env.socket_result, host ++ ":".toList ++ intToDec port, host, port, true, env.now⟩
    mgr.connections hfresh
  unfold ServerManager.getConnectedServers
  rw [hsnd]
  refine ⟨hfst, hperm, ?_, ?_, ?_⟩
  · simpa using hperm.length_eq
  · intro pair hp
    exact hperm.symm.subset (List.mem_cons_of_mem _ hp)
  · rw [getConnectedServersLoop_eq_map]
    refine ⟨_, List.mem_map_of_mem _ (hperm.symm.subset (List.mem_cons_self _ _)), ?_⟩
    exact ⟨rfl, rfl, rfl⟩

/-- C17 (witness): the sample manager connects to a third peer. -/
theorem connectToServer_adds_connection_witness :
    (sampleManager.connectToServer sampleConnectOk "127.0.0.1".toList 9090).1 = true ∧
    (sampleManager.connectToServer sampleConnectOk "127.0.0.1".toList 9090).2.connections.length
      = 3 ∧
    (∃ info ∈ (sampleManager.connectToServer sampleConnectOk "127.0.0.1".toList
        9090).2.getConnectedServers,
      info.host = "127.0.0.1".toList ∧ info.port = 9090 ∧ info.is_connected = true) :=
  have h := connectToServer_adds_connection sampleConnectOk sampleManager "127.0.0.1".toList
    9090 (by decide) (by decide) (by decide) (by decide) (by decide)
  ⟨h.1, h.2.2.1, h.2.2.2.2⟩

theorem mem_mapAssign (key : Str) (value : InterServerConnection) :
    ∀ (connections : ConnectionMap) (pair : Str × InterServerConnection),
      pair ∈ mapAssign key value connections → pair = (key, value) ∨ pair ∈ connections := by
  intro connections
  induction connections with
  | nil =>
    intro pair hp
    left
    simpa [mapAssign] using hp
  | cons x rest ih =>
    intro pair hp
    unfold mapAssign at hp
    split at hp
    · rcases List.mem_cons.mp hp with h | h
      · exact Or.inl h
      · exact Or.inr (List.mem_cons_of_mem x h)
    · split at hp
      · rcases List.mem_cons.mp hp with h | h
        · exact Or.inl h
        · exact Or.inr h
      · rcases List.mem_cons.mp hp with h | h
        · exact Or.inr (h ▸ List.mem_cons_self x rest)
        · rcases ih pair h with h2 | h2
          · exact Or.inl h2
          · exact Or.inr (List.mem_cons_of_mem x h2)

theorem connect_keeps_identity (env : ConnectEnv) (c : InterServerConnection) :
    (c.connect env).2.server_id = c.server_id ∧ (c.connect env).2.host = c.host ∧
      (c.connect env).2.port = c.port := by
  unfold InterServerConnection.connect
  dsimp only
  split
  · exact ⟨rfl, rfl, rfl⟩
  · split
    · exact ⟨rfl, rfl, rfl⟩
    · split <;> exact ⟨rfl, rfl, rfl⟩

/-- Every call of `connectToServer` keeps the map invariant: entries are filed under the
id `host:port` of their connection. -/
theorem keysAreIds_connectToServer (env : ConnectEnv) (mgr : ServerManager) (host : Str)
    (port : Int) (hkeys : KeysAreIds mgr.connections) :
    KeysAreIds (mgr.connectToServer env host port).2.connections := by
  obtain ⟨hid, hhost, hport⟩ := connect_keeps_identity env (InterServerConnection.new host port)
  unfold ServerManager.connectToServer
  dsimp only
  split
  · exact hkeys
  · split
    · intro pair hp
      rcases mem_mapAssign _ _ _ pair hp with h | h
      · rw [h]
        simp only [hid, hhost, hport]
        rfl
      · exact hkeys pair h
    · exact hkeys

/-- C18. `connectToServer(host, port)` leaves the manager, and so the connection map, as
it was in both outcomes that make no connection: when a connection with that host and
port is in the map it returns `true`, and when there is none and the transport does not
connect (no socket, an address `inet_pton` rejects, or a failed `::connect`) it returns
`false`. -/
theorem connectToServer_leaves_map_unchanged (env : ConnectEnv) (mgr : ServerManager)
    (host : Str) (port : Int) :
    ((∃ pair ∈ mgr.connections, pair.2.host = host ∧ pair.2.port = port) →
      mgr.connectToServer env host port = (true, mgr)) ∧
    ((∀ pair ∈ mgr.connections, ¬ (pair.2.host = host ∧ pair.2.port = port)) →
      (env.socket_result = INVALID_SOCKET ∨ env.inet_pton_result ≤ 0 ∨
        env.connect_result = SOCKET_ERROR) →
      mgr.connectToServer env host port = (false, mgr)) := by
  constructor
  · intro hex
    unfold ServerManager.connectToServer
    rw [if_pos ((alreadyConnected_iff _ _ _).mpr hex)]
  · intro hnew hfail
    have hnot : ¬ (alreadyConnected host port mgr.connections = true) := by
      rw [alreadyConnected_iff]
      rintro ⟨pair, hp, h⟩
      exact hnew pair hp h
    have hcon := connect_new_of_failure env host port hfail
    unfold ServerManager.connectToServer
    rw [if_neg hnot]
    simp only [hcon, Bool.false_eq_true, if_false]

/-- C18 (witness): connecting again to the first sample peer, and connecting to a closed
port. -/
theorem connectToServer_leaves_map_unchanged_witness :
    sampleManager.connectToServer sampleConnectOk "10.0.0.7".toList 9090
      = (true, sampleManager) ∧
    sampleManager.connectToServer sampleConnectRefused "127.0.0.1".toList 9090
      = (false, sampleManager) :=
  ⟨(connectToServer_leaves_map_unchanged sampleConnectOk sampleManager "10.0.0.7".toList
      9090).1 ⟨_, List.mem_cons_self _ _, by decide⟩,
   (connectToServer_leaves_map_unchanged sampleConnectRefused sampleManager
      "127.0.0.1".toList 9090).2 (by decide) (by decide)⟩

/-! ## The federation manager: sending -/

theorem sendMessageLoop_spec (transport : Send → Int) (message : ServerMessage) :
    ∀ (connections : ConnectionMap) (sent : Bool),
      (sendMessageLoop transport message connections sent).1
        = (sent || connections.any (fun pair => (pair.2.sendMessage transport message).1)) ∧
      (sendMessageLoop transport message connections sent).2.1
        = connections.map (fun pair => (pair.2.sendMessage transport message).1) ∧
      (sendMessageLoop transport message connections sent).2.2
        = (connections.map (fun pair => (pair.2.sendMessage transport message).2)).flatten := by
  intro connections
  induction connections with
  | nil => intro sent; simp [sendMessageLoop]
  | cons x rest ih =>
    intro sent
    obtain ⟨h1, h2, h3⟩ := ih (if (x.2.sendMessage transport message).1 = true then true
      else sent)
    simp only [sendMessageLoop, h1, h2, h3, List.any_cons, List.map_cons, List.flatten_cons]
    refine ⟨?_, trivial, trivial⟩
    cases (x.2.sendMessage transport message).1 <;> cases sent <;> simp

theorem incrementAtomicInt_of_room (v : Int) (hint : inInt v) (hroom : v < INT_MAX) :
    incrementAtomicInt v = v + 1 := by
  unfold inInt INT_MIN INT_MAX at hint
  unfold INT_MAX at hroom
  unfold incrementAtomicInt
  omega

theorem connection_sendMessage_result (transport : Send → Int) (c : InterServerConnection)
    (message : ServerMessage) :
    (c.sendMessage transport message).1
      = (c.connected &&
          decide (transport (c.connection_socket, serializeServerMessage message)
            ≠ SOCKET_ERROR)) ∧
    (c.sendMessage transport message).2
      = if c.connected then [(c.connection_socket, serializeServerMessage message)] else [] := by
  unfold InterServerConnection.sendMessage
  cases c.connected <;> simp

theorem flatten_connection_logs (transport : Send → Int) (message : ServerMessage) :
    ∀ connections : ConnectionMap,
      (connections.map (fun pair => (pair.2.sendMessage transport message).2)).flatten
        = (connections.filter (fun pair => pair.2.connected)).map
            (fun pair => (pair.2.connection_socket, serializeServerMessage message)) := by
  intro connections
  induction connections with
  | nil => rfl
  | cons x rest ih =>
    rw [List.map_cons, List.flatten_cons, ih, (connection_sendMessage_result _ _ _).2]
    cases hc : x.2.connected <;> simp [List.filter_cons, hc]

/-- C19 (counterexample). The sample manager, its counter at `INT_MAX`, broadcasts over a
working transport. The call returns `true`, and the counter is then `INT_MIN`, not one
more than before. The second sample peer, which is in the map but not connected, is
asked (its `sendMessage` returns `false`) without any `send` on its socket. -/
theorem broadcastMessage_counter_wraps_at_int_max :
    (sampleManagerAtIntMax.broadcastMessage sampleTransportUp sampleMessage).sent = true ∧
    sampleManagerAtIntMax.total_messages_sent = INT_MAX ∧
    (sampleManagerAtIntMax.broadcastMessage sampleTransportUp
        sampleMessage).manager.total_messages_sent = -2147483648 ∧
    (sampleManagerAtIntMax.broadcastMessage sampleTransportUp
        sampleMessage).manager.total_messages_sent
      ≠ sampleManagerAtIntMax.total_messages_sent + 1 ∧
    (("10.0.0.8:9090".toList, samplePeerB) ∈ sampleManagerAtIntMax.connections ∧
      (sampleManagerAtIntMax.broadcastMessage sampleTransportUp sampleMessage).results
        = [true, false] ∧
      (sampleManagerAtIntMax.broadcastMessage sampleTransportUp sampleMessage).log
        = [(samplePeerA.connection_socket, "200|S1||5|hi".toList)] ∧
      deliveries (sampleManagerAtIntMax.broadcastMessage sampleTransportUp sampleMessage).log
        samplePeerB.connection_socket = []) := by
  decide

/-- C19 (amended). `ServerManager::broadcastMessage(message)` calls `sendMessage` on every
connection of the map, in order, whatever the earlier calls returned: on a connection that
is connected one `send` of the serialized message is made on its socket and the call
succeeds when that `send` does not return `SOCKET_ERROR`; on one that is not connected
nothing is sent and the call fails. It returns `true` exactly when at least one call
succeeded, hence `false` on an empty map. When it returns `true` the counter
`total_messages_sent`, a 32-bit `int`, is incremented (one more below `INT_MAX`, and
`INT_MIN` after `INT_MAX`); when it returns `false` the manager is unchanged. -/
theorem broadcastMessage_sends_and_counts (transport : Send → Int) (mgr : ServerManager)
    (message : ServerMessage) :
    (mgr.broadcastMessage transport message).log
      = (mgr.connections.filter (fun pair => pair.2.connected)).map
          (fun pair => (pair.2.connection_socket, serializeServerMessage message)) ∧
    (mgr.broadcastMessage transport message).results
      = mgr.connections.map (fun pair =>
          pair.2.connected &&
            decide (transport (pair.2.connection_socket, serializeServerMessage message)
              ≠ SOCKET_ERROR)) ∧
    ((mgr.broadcastMessage transport message).sent = true ↔
      ∃ pair ∈ mgr.connections, pair.2.connected = true ∧
        transport (pair.2.connection_socket, serializeServerMessage message)
          ≠ SOCKET_ERROR) ∧
    (mgr.connections = [] → (mgr.broadcastMessage transport message).sent = false) ∧
    ((mgr.broadcastMessage transport message).sent = true →
      (mgr.broadcastMessage transport message).manager
        = { mgr with total_messages_sent := incrementAtomicInt mgr.total_messages_sent }) ∧
    ((mgr.broadcastMessage transport message).sent = false →
      (mgr.broadcastMessage transport message).manager = mgr) ∧
    (∀ v : Int, inInt v → v < INT_MAX → incrementAtomicInt v = v + 1) ∧
    incrementAtomicInt INT_MAX = INT_MIN := by
  obtain ⟨h1, h2, h3⟩ := sendMessageLoop_spec transport message mgr.connections false
  have hres : mgr.connections.map (fun pair => (pair.2.sendMessage transport message).1)
      = mgr.connections.map (fun pair =>
          pair.2.connected &&
            decide (transport (pair.2.connection_socket, serializeServerMessage message)
              ≠ SOCKET_ERROR)) := by
    apply List.map_congr_left
    intro pair _
    exact (connection_sendMessage_result _ _ _).1
  have hany : (sendMessageLoop transport message mgr.connections false).1 = true ↔
      ∃ pair ∈ mgr.connections, pair.2.connected = true ∧
        transport (pair.2.connection_socket, serializeServerMessage message)
          ≠ SOCKET_ERROR := by
    rw [h1, Bool.false_or, List.any_eq_true]
    constructor
    · rintro ⟨pair, hp, hr⟩
      rw [(connection_sendMessage_result _ _ _).1, Bool.and_eq_true, decide_eq_true_iff] at hr
      exact ⟨pair, hp, hr⟩
    · rintro ⟨pair, hp, hr⟩
      refine ⟨pair, hp, ?_⟩
      rw [(connection_sendMessage_result _ _ _).1, Bool.and_eq_true, decide_eq_true_iff]
      exact hr
  have hnilloop : (sendMessageLoop transport message [] false).1 = false := rfl
  have hlog := flatten_connection_logs transport message mgr.connections
  unfold ServerManager.broadcastMessage ServerManager.sendMessage
  by_cases hs : (sendMessageLoop transport message mgr.connections false).1 = true
  · simp only [hs, if_true]
    refine ⟨by rw [h3, hlog], by rw [h2, hres], ?_, ?_, ?_, ?_,
      fun v hint hroom => incrementAtomicInt_of_room v hint hroom, by decide⟩
    · exact ⟨fun _ => hany.mp hs, fun _ => trivial⟩
    · intro hnil
      rw [hnil, hnilloop] at hs
      exact absurd hs (by decide)
    · intro _
      trivial
    · intro h
      exact absurd h (by decide)
  · simp only [hs, Bool.false_eq_true, if_false]
    refine ⟨by rw [h3, hlog], by rw [h2, hres], ?_, ?_, ?_, ?_,
      fun v hint hroom => incrementAtomicInt_of_room v hint hroom, by decide⟩
    · exact ⟨fun h => absurd h (by decide), fun h => absurd (hany.mpr h) hs⟩
    · intro _
      trivial
    · intro h
      exact absurd h (by decide)
    · intro _
      trivial

/-- C19 (witness): with the first sample peer connected and the second not, a broadcast
over a working transport writes the serialized message to the first peer's socket only,
returns `true` and counts 8 messages instead of 7; over a transport on which every write
fails it returns `false` and the manager is unchanged. -/
theorem broadcastMessage_sends_and_counts_witness :
    ((sampleManager.broadcastMessage sampleTransportUp sampleMessage).log
        = [(20, "200|S1||5|hi".toList)] ∧
      (sampleManager.broadcastMessage sampleTransportUp sampleMessage).results
        = [true, false] ∧
      (sampleManager.broadcastMessage sampleTransportUp sampleMessage).manager
        = { sampleManager with total_messages_sent := 8 }) ∧
    ((sampleManager.broadcastMessage sampleTransportDown sampleMessage).results
        = [false, false] ∧
      (sampleManager.broadcastMessage sampleTransportDown sampleMessage).manager
        = sampleManager) :=
  have hup := broadcastMessage_sends_and_counts sampleTransportUp sampleManager sampleMessage
  have hdown := broadcastMessage_sends_and_counts sampleTransportDown sampleManager
    sampleMessage
  ⟨⟨hup.1, hup.2.1, hup.2.2.2.2.1 (by decide)⟩,
   ⟨hdown.2.1, hdown.2.2.2.2.2.1 (by decide)⟩⟩

/-! ## The federation manager: dispatch -/

theorem dispatchHandler_eq_none_iff (type : ServerMessageType) :
    dispatchHandler type = none ↔ type ∉ handledTypes := by
  unfold dispatchHandler handledTypes
  simp only [List.mem_cons, List.mem_singleton, List.not_mem_nil, or_false, not_or]
  constructor
  · intro h
    split_ifs at h with h1 h2 h3 h4 h5 h6 h7 h8
    exact ⟨h1, h2, h3, h4, h5, h6, h7, h8⟩
  · rintro ⟨h1, h2, h3, h4, h5, h6, h7, h8⟩
    rw [if_neg h1, if_neg h2, if_neg h3, if_neg h4, if_neg h5, if_neg h6, if_neg h7, if_neg h8]

/-- C21 (counterexample). A message of the enumerator `SERVER_HANDSHAKE_ACK` (code 101)
reaches the `default` branch: no handler is invoked and the line "Unknown message type
received: 101" is logged. The same holds for each of the twelve enumerators the `switch`
has no `case` label for. -/
theorem processMessage_treats_handshake_ack_as_unknown :
    (sampleManager.processMessage sampleHandshakeAck).handler = none ∧
    (sampleManager.processMessage sampleHandshakeAck).console
      = ["[NETWORK] Unknown message type received: 101".toList] ∧
    unhandledEnumerators.map dispatchHandler = List.replicate 12 none := by
  decide

/-- C21 (amended). `processMessage` invokes a handler exactly for the eight types its
`switch` names: `handleHandshake` for `SERVER_HANDSHAKE`, `handleServerRegister` for
`SERVER_REGISTER`, `handleMessageForward` for the three `MSG_FORWARD_*` types,
`handleUserSync` for `USER_JOIN_SERVER` and `USER_LEAVE_SERVER`, `handleServerStatus` for
`SERVER_STATUS_REQUEST`, and what is logged is what that handler logs. For every other type
code, the other twelve enumerators included, it invokes no handler, logs "Unknown message
type received: " followed by the code, and returns; in both cases the only change to the
manager is the received-message counter. -/
theorem processMessage_dispatch (mgr : ServerManager) (message : ServerMessage) :
    handledTypes.map dispatchHandler
      = [some Handler.handleHandshake, some Handler.handleServerRegister,
         some Handler.handleMessageForward, some Handler.handleMessageForward,
         some Handler.handleMessageForward, some Handler.handleUserSync,
         some Handler.handleUserSync, some Handler.handleServerStatus] ∧
    (∀ t ∈ unhandledEnumerators, t ∉ handledTypes) ∧
    (message.type ∈ handledTypes →
      ∃ h, dispatchHandler message.type = some h ∧
        (mgr.processMessage message).handler = some h ∧
        (mgr.processMessage message).console = (h.run message).console) ∧
    (message.type ∉ handledTypes →
      (mgr.processMessage message).handler = none ∧
      (mgr.processMessage message).console
        = [logNetworkMessage
            ("Unknown message type received: ".toList ++ intToDec message.type.code)] ∧
      (mgr.processMessage message).sent = []) ∧
    (mgr.processMessage message).manager
      = { mgr with
          total_messages_received := incrementAtomicInt mgr.total_messages_received } := by
  refine ⟨by decide, by decide, ?_, ?_, ?_⟩
  · intro hmem
    cases hd : dispatchHandler message.type with
    | none => exact absurd hmem ((dispatchHandler_eq_none_iff _).mp hd)
    | some h =>
      refine ⟨h, rfl, ?_, ?_⟩ <;> simp [ServerManager.processMessage, hd]
  · intro hnot
    have hd := (dispatchHandler_eq_none_iff _).mpr hnot
    simp [ServerManager.processMessage, hd]
  · unfold ServerManager.processMessage
    cases dispatchHandler message.type <;> rfl

/-- C21 (witness): a handshake is handled, a message with the type code 999 is not. -/
theorem processMessage_dispatch_witness :
    (∃ h, dispatchHandler ServerMessageType.SERVER_HANDSHAKE = some h ∧
      (sampleManager.processMessage
          { sampleMessage with type := ServerMessageType.SERVER_HANDSHAKE }).handler = some h ∧
      (sampleManager.processMessage
          { sampleMessage with type := ServerMessageType.SERVER_HANDSHAKE }).console
        = (h.run { sampleMessage with type := ServerMessageType.SERVER_HANDSHAKE }).console) ∧
    (sampleManager.processMessage { sampleMessage with type := ⟨999⟩ }).handler = none :=
  ⟨(processMessage_dispatch sampleManager
      { sampleMessage with type := ServerMessageType.SERVER_HANDSHAKE }).2.2.1 (by decide),
   ((processMessage_dispatch sampleManager
      { sampleMessage with type := ⟨999⟩ }).2.2.2.1 (by decide)).1⟩

/-- C22 (counterexample). A `MSG_FORWARD_PUBLIC` message with the payload `hi` is
dispatched to `handleMessageForward`, which writes one console line and makes no `send`
call: alice, an active session of the local registry, is sent nothing. -/
theorem handleMessageForward_reaches_no_session :
    (sampleManager.processMessage sampleMessage).handler = some Handler.handleMessageForward ∧
    (sampleManager.processMessage sampleMessage).console
      = ["[NETWORK] Message forwarded: hi".toList] ∧
    (sampleManager.processMessage sampleMessage).sent = [] ∧
    (sampleAlice ∈ sampleRegistry ∧ sampleAlice.active = true ∧
      deliveries (sampleManager.processMessage sampleMessage).sent sampleAlice.socket = []) := by
  decide

/-- C22 (amended). For every message of type `MSG_FORWARD_PUBLIC`, `MSG_FORWARD_PRIVATE`
or `MSG_FORWARD_BROADCAST`, the dispatch invokes `handleMessageForward`, which writes the
console line `[NETWORK] Message forwarded: <payload>` and nothing else: no `send` call
is made, so no session of the local client registry receives anything. -/
theorem processMessage_forward_only_logs (mgr : ServerManager) (message : ServerMessage)
    (htype : message.type = ServerMessageType.MSG_FORWARD_PUBLIC ∨
      message.type = ServerMessageType.MSG_FORWARD_PRIVATE ∨
      message.type = ServerMessageType.MSG_FORWARD_BROADCAST) :
    (mgr.processMessage message).handler = some Handler.handleMessageForward ∧
    (mgr.processMessage message).console
      = ["[NETWORK] Message forwarded: ".toList ++ message.payload] ∧
    (mgr.processMessage message).sent = [] ∧
    (∀ socket, deliveries (mgr.processMessage message).sent socket = []) := by
  have hd : dispatchHandler message.type = some Handler.handleMessageForward := by
    rcases htype with h | h | h <;> rw [h] <;> decide
  have hout : mgr.processMessage message
      = { manager := { mgr with
            total_messages_received := incrementAtomicInt mgr.total_messages_received },
          handler := some Handler.handleMessageForward,
          console := (Handler.handleMessageForward.run message).console,
          sent := (Handler.handleMessageForward.run message).sent } := by
    unfold ServerManager.processMessage
    rw [hd]
  rw [hout]
  refine ⟨rfl, ?_, rfl, fun _ => rfl⟩
  simp [Handler.run, handleMessageForward, logNetworkMessage]

/-- C22 (witness): a private forward with the payload `hi`. -/
theorem processMessage_forward_only_logs_witness :
    (sampleManager.processMessage
        { sampleMessage with type := ServerMessageType.MSG_FORWARD_PRIVATE }).console
      = ["[NETWORK] Message forwarded: hi".toList] ∧
    (sampleManager.processMessage
        { sampleMessage with type := ServerMessageType.MSG_FORWARD_PRIVATE }).sent = [] :=
  have h := processMessage_forward_only_logs sampleManager
    { sampleMessage with type := ServerMessageType.MSG_FORWARD_PRIVATE }
    (Or.inr (Or.inl rfl))
  ⟨h.2.1, h.2.2.1⟩

/-! ## The receive loop -/

/-- A frame that decodes updates the last-activity time and changes nothing else: the
decoded message is not put on the inbound queue. -/
theorem receiveIteration_of_decoded (now : Int) (st : ReceiveState) (received : Str)
    (message : ServerMessage) (hne : received ≠ [])
    (hok : deserializeServerMessage (cString received) = .ok message) :
    receiveIteration now st received
      = { st with connection := { st.connection with last_activity := now } } := by
  have hlen : ¬ (received.length ≤ 0) := by
    cases received with
    | nil => exact absurd rfl hne
    | cons c cs => simp
  unfold receiveIteration
  rw [if_neg hlen]
  simp only [hok]

/-- C23 (evaluation at the failing input). On the established first sample peer, with an
empty inbound queue, the frame `200|S1||5|hi` is read at tick `1300000000000`. It decodes
to the sample message, and the last-activity time is updated, but the inbound queue is
still empty afterwards: the decoded message is appended nowhere. -/
theorem receiveIteration_does_not_enqueue :
    deserializeServerMessage (cString "200|S1||5|hi".toList) = .ok sampleMessage ∧
    (receiveIteration 1300000000000 sampleReceiveState "200|S1||5|hi".toList).message_queue
      = [] ∧
    (receiveIteration 1300000000000 sampleReceiveState "200|S1||5|hi".toList).message_queue
      ≠ sampleReceiveState.message_queue ++ [sampleMessage] ∧
    (receiveIteration 1300000000000 sampleReceiveState
        "200|S1||5|hi".toList).connection.last_activity = 1300000000000 := by
  decide

/-- C24. For every received frame on which `deserializeServerMessage` throws (whatever the
exception: too few fields, no number in the type or time-stamp field, or a number out of
range), the pass of the receive loop catches the exception and reports it, and changes
nothing else: the connection, so its connected flag and last-activity time, and the
inbound queue are as before, the loop is not left, and it goes on with the next read. -/
theorem receiveIteration_drops_malformed_frame (now : Int) (st : ReceiveState)
    (received : Str) (e : CodecError) (hne : received ≠ [])
    (hfail : deserializeServerMessage (cString received) = .error e) :
    receiveIteration now st received = { st with caught := st.caught ++ [e] } ∧
    (receiveIteration now st received).connection = st.connection ∧
    (receiveIteration now st received).message_queue = st.message_queue ∧
    (receiveIteration now st received).exited = st.exited ∧
    (∀ (clock : Nat → Int) (i : Nat) (rest : List Str), clock i = now →
      st.exited = false → st.connection.connected = true →
      receiveLoop clock i (received :: rest) st
        = receiveLoop clock (i + 1) rest { st with caught := st.caught ++ [e] }) := by
  have hlen : ¬ (received.length ≤ 0) := by
    cases received with
    | nil => exact absurd rfl hne
    | cons c cs => simp
  have hiter : receiveIteration now st received = { st with caught := st.caught ++ [e] } := by
    unfold receiveIteration
    rw [if_neg hlen]
    simp only [hfail]
  refine ⟨hiter, by rw [hiter], by rw [hiter], by rw [hiter], ?_⟩
  intro clock i rest hclock hex hcon
  rw [receiveLoop]
  simp only [hex, hcon, hclock, hiter, Bool.false_eq_true, if_false, Bool.not_true]

/-- C24 (witness): a frame with two fields, then a frame whose type is not a number. -/
theorem receiveIteration_drops_malformed_frame_witness :
    receiveIteration 1300000000000 sampleReceiveState "hello|world".toList
      = { sampleReceiveState with
          caught := [CodecError.runtime_error "Invalid message format"] } ∧
    (receiveIteration 1300000000000 sampleReceiveState "x|S1||5|hi".toList).connection
      = samplePeerA :=
  ⟨(receiveIteration_drops_malformed_frame 1300000000000 sampleReceiveState
      "hello|world".toList (CodecError.runtime_error "Invalid message format")
      (by decide) (by decide)).1,
   (receiveIteration_drops_malformed_frame 1300000000000 sampleReceiveState
      "x|S1||5|hi".toList CodecError.invalid_argument (by decide) (by decide)).2.1⟩

/-! ## `disconnect` -/

/-- On a connected connection `disconnect()` clears the flag and releases the socket. -/
theorem disconnect_of_connected (c : InterServerConnection) (hc : c.connected = true) :
    (c.disconnect).1.connected = false ∧ (c.disconnect).1.connection_socket = INVALID_SOCKET := by
  unfold InterServerConnection.disconnect
  simp only [hc, Bool.not_true, Bool.false_eq_true, if_false]
  split
  · exact ⟨rfl, rfl⟩
  · rename_i h
    exact ⟨rfl, by simpa using h⟩

/-- After `disconnect()` the connection is not connected, and a second `disconnect()`
changes nothing and closes nothing. -/
theorem disconnect_idempotent (c : InterServerConnection) :
    (c.disconnect).1.connected = false ∧
    (c.disconnect).1.disconnect = ((c.disconnect).1, []) := by
  have hnc : (c.disconnect).1.connected = false := by
    unfold InterServerConnection.disconnect
    cases hc : c.connected with
    | false => simp [hc]
    | true =>
      simp only [Bool.not_true, Bool.false_eq_true, if_false]
      split <;> rfl
  refine ⟨hnc, ?_⟩
  generalize c.disconnect = r at hnc
  unfold InterServerConnection.disconnect
  simp [hnc]

/-- C25 (evaluation at the failing input). The first sample peer is established on socket
20 when its peer closes the connection: `recv` returns 0, the receive loop leaves and
sets `connected = false`, the socket staying open. `disconnect()` then returns at its
first test: it closes nothing and the socket handle is still 20, not `INVALID_SOCKET`. -/
theorem disconnect_after_receive_loop_ended_keeps_socket :
    (receiveLoop (fun _ => 1300000000000) 0 [[]] sampleReceiveState).exited = true ∧
    (receiveLoop (fun _ => 1300000000000) 0 [[]] sampleReceiveState).connection
      = { samplePeerA with connected := false } ∧
    (receiveLoop (fun _ => 1300000000000) 0 [[]] sampleReceiveState).connection.disconnect
      = ({ samplePeerA with connected := false }, []) ∧
    ((receiveLoop (fun _ => 1300000000000) 0 [[]]
        sampleReceiveState).connection.disconnect).1.connection_socket = 20 ∧
    ((receiveLoop (fun _ => 1300000000000) 0 [[]]
        sampleReceiveState).connection.disconnect).1.connection_socket ≠ INVALID_SOCKET := by
  decide

/-! ## The allow-list -/

theorem findString_iff (value : Str) (l : List Str) :
    findString value l = true ↔ value ∈ l := by
  induction l with
  | nil => simp [findString]
  | cons x rest ih =>
    unfold findString
    by_cases hx : x = value
    · rw [if_pos hx]
      simp [hx]
    · rw [if_neg hx, ih]
      constructor
      · exact fun h => List.mem_cons_of_mem x h
      · intro h
        rcases List.mem_cons.mp h with h1 | h1
        · exact absurd h1.symm hx
        · exact h1

/-- C26. `isServerAllowed(serverId)` returns `true` for every id when the allow-list is
empty, and otherwise returns `true` exactly when the id is an element of the list. -/
theorem isServerAllowed_iff (config : ServerConfig) (server_id : Str) :
    (config.allowed_servers = [] → isServerAllowed config server_id = true) ∧
    (config.allowed_servers ≠ [] →
      (isServerAllowed config server_id = true ↔ server_id ∈ config.allowed_servers)) := by
  constructor
  · intro h
    simp [isServerAllowed, h]
  · intro h
    have hne : config.allowed_servers.isEmpty = false := by
      cases hl : config.allowed_servers with
      | nil => exact absurd hl h
      | cons x rest => rfl
    unfold isServerAllowed
    rw [hne]
    simp only [Bool.false_eq_true, if_false]
    exact findString_iff _ _

/-- C26 (witness): with no list every id is allowed; with the list `S1, S2` the id `S2`
is allowed and `S3` is not. -/
theorem isServerAllowed_iff_witness :
    isServerAllowed { sampleConfig with allowed_servers := [] } "S3".toList = true ∧
    isServerAllowed sampleConfig "S2".toList = true ∧
    ¬ (isServerAllowed sampleConfig "S3".toList = true) :=
  ⟨(isServerAllowed_iff { sampleConfig with allowed_servers := [] } "S3".toList).1 rfl,
   ((isServerAllowed_iff sampleConfig "S2".toList).2 (by decide)).mpr (by decide),
   fun h => absurd (((isServerAllowed_iff sampleConfig "S3".toList).2 (by decide)).mp h)
     (by decide)⟩

/-! ## The registry mutex -/

/-- The paths that take the guard first leave no unguarded write and compute what the
registration step and `kickUser` compute. -/
theorem guarded_paths_under_lock (g : GuardedRegistry) (client : Client) (username : Str) :
    (guardedJoin client g).unguarded = g.unguarded ∧
    (guardedJoin client g).clients = (handleClientJoin g.clients client).clients ∧
    (guardedKick username g).unguarded = g.unguarded ∧
    (guardedKick username g).clients = (kickUser username g.clients).1 ∧
    (guardedStop g).unguarded = g.unguarded ∧ (guardedStop g).clients = [] := by
  refine ⟨?_, ?_, rfl, rfl, rfl, rfl⟩
  · unfold guardedJoin
    simp only [GuardedRegistry.acquire]
    split <;> rfl
  · unfold guardedJoin handleClientJoin
    simp only [GuardedRegistry.acquire]
    split <;> rfl

/-- The `/quit` branch and the disconnect path each make one write, the assignment
`active = false`, while no guard is alive; they compute what `processMessage` and the
disconnect path compute. -/
theorem guarded_paths_without_lock (g : GuardedRegistry) (p : Client) (now : Str)
    (hfree : g.held = false) :
    (guardedQuit p g).unguarded = g.unguarded + 1 ∧
    (guardedQuit p g).clients = (processMessage now g.clients p "/quit".toList).1 ∧
    (guardedDisconnect p g).unguarded = g.unguarded + 1 ∧
    (guardedDisconnect p g).clients = (handleClientDisconnect g.clients p).1 := by
  refine ⟨?_, ?_, ?_, rfl⟩
  · simp [guardedQuit, GuardedRegistry.write, hfree]
  · have hq : processMessage now g.clients p "/quit".toList
        = (setInactive g.clients p.addr, [(p.socket, "Goodbye!\n".toList)]) := by
      unfold processMessage
      rw [if_pos (by decide)]
      have hw : (IStringStream.extractWord { unread := "/quit".toList, good := true }).1
          = "/quit".toList := by decide
      simp only [hw, if_true]
    rw [hq]
    rfl
  · simp [guardedDisconnect, GuardedRegistry.write, GuardedRegistry.acquire,
      GuardedRegistry.release]

/-- C27 (evaluation at the failing input). On the sample registry, with the mutex free:
when alice sends `/quit`, the write `sender->active = false` that marks her entry
inactive is made while no guard on `clients_mutex` is alive, and so is the write
`client_ptr->active = false` in the disconnect path of bob; the registration block,
`kickUser` and `stop()` make their writes under the guard. -/
theorem mark_inactive_without_lock :
    (guardedQuit sampleAlice sampleGuarded).unguarded = 1 ∧
    (guardedQuit sampleAlice sampleGuarded).clients
      = (processMessage "[12:00:00]".toList sampleRegistry sampleAlice "/quit".toList).1 ∧
    (guardedQuit sampleAlice sampleGuarded).clients
      = [{ sampleAlice with active := false }, sampleBob, sampleCarol] ∧
    (guardedDisconnect sampleBob sampleGuarded).unguarded = 1 ∧
    (guardedDisconnect sampleBob sampleGuarded).clients
      = (handleClientDisconnect sampleRegistry sampleBob).1 ∧
    (guardedJoin sampleAlice2 sampleGuarded).unguarded = 0 ∧
    (guardedKick "bob".toList sampleGuarded).unguarded = 0 ∧
    (guardedStop sampleGuarded).unguarded = 0 := by
  decide

/-! ## `isServerTimeout` -/

/-- The function returns `true` exactly when 301 minutes or more have elapsed. -/
theorem isServerTimeout_iff (now last_seen : Int) :
    isServerTimeout now last_seen = true ↔ now - last_seen ≥ 301 * 60 * ticksPerSecond := by
  unfold isServerTimeout minutesOfDuration SERVER_TIMEOUT_SECONDS ticksPerSecond
  rw [decide_eq_true_iff]
  split <;> omega

/-- C28 (evaluation at the failing input). With `last_seen` at the epoch and the clock
at 301 s, more than `SERVER_TIMEOUT_SECONDS = 300` seconds have elapsed, yet
`isServerTimeout` returns `false`: it counts whole minutes (5) and compares them with 300.
It still returns `false` after 300 minutes and turns `true` only at 301 minutes. -/
theorem isServerTimeout_false_after_301_seconds :
    SERVER_TIMEOUT_SECONDS = 300 ∧
    301 * ticksPerSecond - 0 > SERVER_TIMEOUT_SECONDS * ticksPerSecond ∧
    minutesOfDuration (301 * ticksPerSecond - 0) = 5 ∧
    isServerTimeout (301 * ticksPerSecond) 0 = false ∧
    isServerTimeout (300 * 60 * ticksPerSecond) 0 = false ∧
    isServerTimeout (301 * 60 * ticksPerSecond) 0 = true := by
  decide

/-! ## Payloads that contain the delimiter -/

theorem split_at_first_bar : ∀ l : Str, '|' ∈ l →
    '|' ∉ l.takeWhile (fun c => c != '|') ∧
    ∃ rest, l = l.takeWhile (fun c => c != '|') ++ '|' :: rest := by
  intro l
  induction l with
  | nil => intro h; simp at h
  | cons x xs ih =>
    intro h
    by_cases hx : x = '|'
    · subst hx
      exact ⟨by simp [List.takeWhile_cons], xs, by simp [List.takeWhile_cons]⟩
    · have hmem : '|' ∈ xs := by
        rcases List.mem_cons.mp h with h1 | h1
        · exact absurd h1.symm hx
        · exact h1
      obtain ⟨hnot, rest, hrest⟩ := ih hmem
      have hb : (x != '|') = true := by simp [hx]
      refine ⟨?_, rest, ?_⟩
      · rw [List.takeWhile_cons, hb]
        simp only [if_true, List.mem_cons, not_or]
        exact ⟨fun e => hx e.symm, hnot⟩
      · rw [List.takeWhile_cons, hb]
        simp only [if_true, List.cons_append, List.cons.injEq, true_and]
        exact hrest

/-- C29. For every `ServerMessage` (with an `int` type code and a 64-bit time stamp) whose
`server_id` and `target_server_id` hold no `|` but whose payload holds at least one,
decoding its serialization succeeds and returns the message with the time stamp truncated
to whole seconds and with, as payload, the part of the payload before its first `|`; what
follows is dropped, only the first five tokens being used. -/
theorem serverMessage_roundtrip_truncates_payload (m : ServerMessage) (hw : m.WellTyped)
    (h1 : '|' ∉ m.server_id) (h2 : '|' ∉ m.target_server_id) (hbar : '|' ∈ m.payload) :
    deserializeServerMessage (serializeServerMessage m) =
      .ok { m with timestamp := truncateToSeconds m.timestamp,
                   payload := m.payload.takeWhile (fun c => c != '|') } := by
  obtain ⟨hnot, rest, hrest⟩ := split_at_first_bar m.payload hbar
  have htok : splitTokens m.payload
      = m.payload.takeWhile (fun c => c != '|') :: splitTokens rest := by
    conv_lhs => rw [hrest]
    exact splitTokens_cons _ _ hnot
  unfold deserializeServerMessage
  rw [splitTokens_serializeServerMessage m h1 h2, htok]
  have hlen : ¬ ((intToDec m.type.code :: m.server_id :: m.target_server_id ::
      intToDec (secondsSinceEpoch m.timestamp) ::
      List.takeWhile (fun c => c != '|') m.payload :: splitTokens rest).length < 5) := by
    simp only [List.length_cons]
    omega
  simp only [hlen, if_false, List.getD_cons_zero, List.getD_cons_succ]
  rw [stoi_intToDec _ hw.1, stoll_intToDec _ (secondsSinceEpoch_inLongLong _ hw.2)]
  simp [bind, Except.bind, pure, Except.pure, timePointOfSeconds_secondsSinceEpoch _ hw.2]

/-- C29 (witness): the payload `a|b|c` comes back as `a`. -/
theorem serverMessage_roundtrip_truncates_payload_witness :
    deserializeServerMessage (serializeServerMessage samplePipedMessage) =
      .ok { samplePipedMessage with timestamp := 5000000000, payload := "a".toList } :=
  serverMessage_roundtrip_truncates_payload samplePipedMessage (by decide) (by decide)
    (by decide) (by decide)

/-! ## The user list -/

/-- C30 (evaluation at the failing input). After alice and bob have joined and alice has
been kicked (a reachable registry: her entry is inactive and still in the vector), the
reply to bob's `/list` has one user line, for bob, the only active session, and ends
with "Total: 2 users". -/
theorem sendUserList_total_counts_inactive :
    Reachable sampleAfterKick ∧
    sampleAfterKick = [{ sampleAlice with active := false }, sampleBob] ∧
    (sampleAfterKick.filter (fun c => c.active)).length = 1 ∧
    (processMessage "[12:00:00]".toList sampleAfterKick sampleBob "/list".toList).2
      = [(sampleBob.socket,
          "\n=== Online Users ===\n- bob (10.0.0.2)\nTotal: 2 users\n\n".toList)] := by
  refine ⟨?_, by decide, by decide, by decide⟩
  exact Reachable.kick _ "alice".toList
    (Reachable.join _ sampleBob (Reachable.join [] sampleAlice Reachable.empty (by decide))
      (by decide))

/-! ## The federation manager: liveness sweep -/

theorem destroyConnection_released_iff (wakes : Bool) (c : InterServerConnection)
    (closed : List Int) :
    destroyConnection wakes c = .released closed ↔
      c.connected = true ∧ wakes = true ∧ closed = (c.disconnect).2 := by
  unfold destroyConnection
  cases hc : c.connected <;> cases hw : wakes <;> simp [eq_comm]

/-- A sweep that runs to its end, every clock reading being `now`, leaves exactly the
entries whose last activity is at most five minutes before `now`; it can run to its end
only if every entry it erases was still connected and its receive thread came back
from `recv`. -/
theorem cleanupLoop_completed (now : Int) (wakes : InterServerConnection → Bool) :
    ∀ (connections : ConnectionMap) (i : Nat) (kept : ConnectionMap) (closed : List Int),
      cleanupLoop (fun _ => now) wakes i connections = .completed kept closed →
      kept = connections.filter
          (fun pair => decide (now - pair.2.last_activity ≤ cleanupTimeout)) ∧
      ∀ pair ∈ connections, now - pair.2.last_activity > cleanupTimeout →
        pair.2.connected = true ∧ wakes pair.2 = true := by
  intro connections
  induction connections with
  | nil =>
    intro i kept closed h
    rw [cleanupLoop] at h
    injection h with h1 h2
    exact ⟨h1.symm, fun pair hp => absurd hp (List.not_mem_nil pair)⟩
  | cons x rest ih =>
    intro i kept closed h
    rw [cleanupLoop] at h
    by_cases hx : now - x.2.last_activity > cleanupTimeout
    · have hle : ¬ (now - x.2.last_activity ≤ cleanupTimeout) := by omega
      rw [if_pos hx] at h
      cases hd : destroyConnection (wakes x.2) x.2 with
      | terminates => rw [hd] at h; cases h
      | waits => rw [hd] at h; cases h
      | released cl =>
        rw [hd] at h
        obtain ⟨hcon, hwake, _⟩ := (destroyConnection_released_iff _ _ _).mp hd
        cases hr : cleanupLoop (fun _ => now) wakes (i + 1) rest with
        | waits => rw [hr] at h; cases h
        | terminates => rw [hr] at h; cases h
        | completed kept1 closed1 =>
          rw [hr] at h
          injection h with h1 h2
          obtain ⟨hk, hall⟩ := ih (i + 1) kept1 closed1 hr
          refine ⟨?_, ?_⟩
          · rw [← h1, hk]
            simp only [List.filter_cons, hle, decide_False, Bool.false_eq_true, if_false]
          · intro pair hp hold
            rcases List.mem_cons.mp hp with hpx | hpr
            · rw [hpx]
              exact ⟨hcon, hwake⟩
            · exact hall pair hpr hold
    · have hle : now - x.2.last_activity ≤ cleanupTimeout := by omega
      rw [if_neg hx] at h
      cases hr : cleanupLoop (fun _ => now) wakes (i + 1) rest with
      | waits => rw [hr] at h; cases h
      | terminates => rw [hr] at h; cases h
      | completed kept1 closed1 =>
        rw [hr] at h
        injection h with h1 h2
        obtain ⟨hk, hall⟩ := ih (i + 1) kept1 closed1 hr
        refine ⟨?_, ?_⟩
        · rw [← h1, hk]
          simp only [List.filter_cons, hle, decide_True, if_true]
        · intro pair hp hold
          rcases List.mem_cons.mp hp with hpx | hpr
          · rw [hpx] at hold
            exact absurd hold hx
          · exact hall pair hpr hold

/-- When every entry to erase is still connected and its receive thread comes back from
`recv`, the sweep runs to its end and leaves the entries of the last five minutes. -/
theorem cleanupLoop_completes (now : Int) (wakes : InterServerConnection → Bool) :
    ∀ (connections : ConnectionMap) (i : Nat),
      (∀ pair ∈ connections, now - pair.2.last_activity > cleanupTimeout →
        pair.2.connected = true ∧ wakes pair.2 = true) →
      ∃ closed, cleanupLoop (fun _ => now) wakes i connections
        = .completed (connections.filter
            (fun pair => decide (now - pair.2.last_activity ≤ cleanupTimeout))) closed := by
  intro connections
  induction connections with
  | nil =>
    intro i _
    exact ⟨[], by rw [cleanupLoop]; rfl⟩
  | cons x rest ih =>
    intro i hall
    obtain ⟨closed1, hr⟩ := ih (i + 1) (fun pair hp => hall pair (List.mem_cons_of_mem x hp))
    rw [cleanupLoop]
    by_cases hx : now - x.2.last_activity > cleanupTimeout
    · have hle : ¬ (now - x.2.last_activity ≤ cleanupTimeout) := by omega
      obtain ⟨hcon, hwake⟩ := hall x (List.mem_cons_self x rest) hx
      have hd : destroyConnection (wakes x.2) x.2 = .released (x.2.disconnect).2 :=
        (destroyConnection_released_iff _ _ _).mpr ⟨hcon, hwake, rfl⟩
      refine ⟨(x.2.disconnect).2 ++ closed1, ?_⟩
      rw [if_pos hx, hd, hr]
      simp only [List.filter_cons, hle, decide_False, Bool.false_eq_true, if_false]
    · have hle : now - x.2.last_activity ≤ cleanupTimeout := by omega
      refine ⟨closed1, ?_⟩
      rw [if_neg hx, hr]
      simp only [List.filter_cons, hle, decide_True, if_true]

/-- C20 (evaluation at the failing input). At tick `1200000000000` the sample manager
holds the second sample peer, whose receive loop has ended (`connected = false`) and
whose last activity is 800 s old. The sweep erases that entry, which destroys the
connection: `disconnect()` returns at its first test and the joinable receive thread is
destroyed, so `std::terminate` ends the process and no map is left to look at. With a
stale entry that is still connected the sweep waits in `join` while the peer stays
silent; it leaves the map of the claim only when the receive thread comes back. -/
theorem cleanupDeadConnections_aborts_on_ended_connection :
    (("10.0.0.8:9090".toList, samplePeerB) ∈ sampleManager.connections ∧
      samplePeerB.connected = false ∧
      1200000000000 - samplePeerB.last_activity > cleanupTimeout) ∧
    sampleManager.cleanupDeadConnections (fun _ => 1200000000000) (fun _ => true)
      = SweepResult.terminates ∧
    sampleStaleManager.cleanupDeadConnections (fun _ => 1200000000000) (fun _ => false)
      = SweepResult.waits ∧
    sampleStaleManager.cleanupDeadConnections (fun _ => 1200000000000) (fun _ => true)
      = SweepResult.completed
          { sampleStaleManager with connections := [("10.0.0.7:9090".toList, samplePeerA)] }
          [23] := by
  decide

end ChatServer
